/-
Verification of the Content360 core: job admission, quota reservation
(holds), idempotency, worker execution with deterministic fallback, and
administrative cancel/retry.

Shallow embedding of:
  * the API server (`POST /v1/jobs/create`, billing summary, admin
    cancel/retry endpoints),
  * the BullMQ worker processor and its `failed`-event cleanup handler,
  * the deterministic fallback payloads and the `quick_boost` strict
    output schema.

Modelling conventions:
  * All timestamps (`created_at`, `updated_at`, `released_at`, `NOW()`)
    are outside the model; the monthly window filter on the usage ledger
    is modelled by treating every ledger row as belonging to the current
    month.  `finished_at` is kept on jobs (as an abstract `Option Nat`)
    because the admin retry endpoint's treatment of it is claim-relevant.
  * Database tables are association lists; SQL `ON CONFLICT DO NOTHING`
    inserts are modelled as guarded appends; `UPDATE ... WHERE` is a map
    over the list.  Primary-key conflicts on plain inserts cannot occur
    in the reachable states considered (fresh ids), so they are modelled
    as plain appends.
  * JavaScript values occurring in request payloads are modelled by the
    `Json` type below, with JS truthiness and `String(...)` coercion.
-/
import Mathlib

/-- JSON/JavaScript value, as carried in request and result payloads. -/
inductive Json where
  | null : Json
  | bool (b : Bool) : Json
  | num (n : Int) : Json
  | str (s : String) : Json
  | arr (xs : List Json) : Json
  | obj (kvs : List (String × Json)) : Json
deriving Repr

/-- JS falsiness: `null`/`undefined`, `false`, `0`, `""` are falsy. -/
def jsFalsy : Json → Bool
  | .null => true
  | .bool b => !b
  | .num n => n == 0
  | .str s => s == ""
  | _ => false

/-- JS truthiness. -/
def jsTruthy (j : Json) : Bool := !jsFalsy j

mutual

/-- `String(x)` coercion of JS.  Arrays join their elements with `,`
(`null` elements become the empty string); objects print as
`[object Object]`. -/
def jsToString : Json → String
  | .null => "null"
  | .bool b => if b then "true" else "false"
  | .num n => toString n
  | .str s => s
  | .arr xs => String.intercalate "," (jsArrParts xs)
  | .obj _ => "[object Object]"

/-- Stringified elements of an array (`null` becomes empty). -/
def jsArrParts : List Json → List String
  | [] => []
  | .null :: rest => "" :: jsArrParts rest
  | j :: rest => jsToString j :: jsArrParts rest

end

/-- Field lookup on a JS object (`x.k`); `none` plays `undefined`. -/
def jsLookup : Json → String → Option Json
  | .obj kvs, k => kvs.lookup k
  | _, _ => none

/-- `a || b || ... || dflt`: first truthy value of the chain, else the
default. `none` entries stand for `undefined` field accesses. -/
def firstTruthy : List (Option Json) → Json → Json
  | [], dflt => dflt
  | none :: rest, dflt => firstTruthy rest dflt
  | some v :: rest, dflt => if jsTruthy v then v else firstTruthy rest dflt

/-- JS `.trim()`: strip leading and trailing whitespace. -/
def jsTrim (s : String) : String :=
  String.mk
    (((s.data.dropWhile Char.isWhitespace).reverse.dropWhile
      Char.isWhitespace).reverse)

/-- `String(x || "")` followed by `.trim()`, applied to an optional field
value, as used throughout `validateCreatePayload`. -/
def jsStrField (v : Option Json) : String :=
  match v with
  | none => ""
  | some j => if jsTruthy j then jsTrim (jsToString j) else ""

/- ----------------------- data model (tables) ----------------------- -/

/-- Row of `c360_jobs`. -/
structure Job where
  id : Nat
  client_id : String
  mode : String
  status : String
  progress : Nat
  request_json : Option Json
  idempotency_key : Option String
  aej_estimated : Nat
  aej_final : Option Nat
  error_text : Option String
  result_json : Option Json
  finished_at : Option Nat
deriving Repr

/-- Row of `c360_aej_holds` (primary key `job_id`). -/
structure Hold where
  job_id : Nat
  client_id : String
  aej_estimated : Nat
  status : String
deriving Repr, DecidableEq

/-- Row of `c360_aej_logs` (unique on `(client_id, job_id, stage)`). -/
structure LedgerEntry where
  client_id : String
  job_id : Nat
  stage : String
  aej_used : Nat
deriving Repr, DecidableEq

/-- Row of `c360_idempotency` (primary key `(client_id, idem_key)`). -/
structure IdemRecord where
  client_id : String
  idem_key : String
  job_id : Nat
deriving Repr, DecidableEq

/-- Row of `c360_decision_log` (unique on
`(client_id, job_id, decision_type)`). -/
structure DecisionRecord where
  client_id : String
  job_id : Nat
  content_source : Json
  content_type : Json
  content_id : String
  decision_type : String
  decision_reason : String
deriving Repr

/-- Row of `c360_job_events` (best-effort timeline). -/
structure EventRecord where
  job_id : String
  client_id : String
  event_type : String
  message : Option String
  meta : Option Json
deriving Repr

/-- Row of `c360_site_settings` (plan and monthly quota per tenant). -/
structure SiteSetting where
  client_id : String
  plan_code : Option String
  monthly_quota_aej : Option Nat
deriving Repr, DecidableEq

/-- Row of `c360_clients` (only the display balance is relevant here). -/
structure Client where
  id : String
  aej_balance : Int
deriving Repr, DecidableEq

/-- Durable store plus dispatch queue.  `queue` holds the job ids
currently pending in BullMQ; `nextId` generates fresh job ids. -/
structure St where
  jobs : List Job
  holds : List Hold
  aej_logs : List LedgerEntry
  idem : List IdemRecord
  decisions : List DecisionRecord
  events : List EventRecord
  settings : List SiteSetting
  clients : List Client
  queue : List Nat
  nextId : Nat
deriving Repr

/-- Empty store over fixed tenant settings and client rows. -/
def initState (settings : List SiteSetting) (clients : List Client) : St :=
  { jobs := [], holds := [], aej_logs := [], idem := [], decisions := [],
    events := [], settings := settings, clients := clients, queue := [],
    nextId := 0 }

/- ----------------------- store queries ----------------------- -/

/-- `SELECT * FROM c360_jobs WHERE id=$1` (first matching row). -/
def findJob (st : St) (jobId : Nat) : Option Job :=
  st.jobs.find? (fun j => j.id = jobId)

/-- `SELECT job_id FROM c360_idempotency WHERE client_id=$1 AND idem_key=$2`. -/
def lookupIdem (st : St) (clientId key : String) : Option Nat :=
  (st.idem.find? (fun r => r.client_id = clientId ∧ r.idem_key = key)).map
    (fun r => r.job_id)

/-- `SELECT plan_code, monthly_quota_aej FROM c360_site_settings WHERE client_id=$1`. -/
def settingsFor (st : St) (clientId : String) : Option SiteSetting :=
  st.settings.find? (fun s => s.client_id = clientId)

/-- `quotaR.rows[0]?.plan_code || "starter"` over the settings table:
missing row, null or empty plan code defaults to `"starter"`. -/
def planOfS (settings : List SiteSetting) (clientId : String) : String :=
  match settings.find? (fun s => s.client_id = clientId) with
  | none => "starter"
  | some s =>
    match s.plan_code with
    | none => "starter"
    | some p => if p = "" then "starter" else p

/-- Effective plan code observed by admission and billing. -/
def planOf (st : St) (clientId : String) : String :=
  planOfS st.settings clientId

/-- `Number(quotaR.rows[0]?.monthly_quota_aej || 500)` over the settings
table: missing row, null or zero quota defaults to `500`. -/
def quotaOfS (settings : List SiteSetting) (clientId : String) : Nat :=
  match settings.find? (fun s => s.client_id = clientId) with
  | none => 500
  | some s =>
    match s.monthly_quota_aej with
    | none => 500
    | some q => if q = 0 then 500 else q

/-- Effective monthly quota observed by admission and billing. -/
def quotaOf (st : St) (clientId : String) : Nat :=
  quotaOfS st.settings clientId

/-- `SELECT COALESCE(SUM(aej_used),0) FROM c360_aej_logs WHERE client_id=$1
AND created_at >= month_start AND created_at < month_end`; every modelled
ledger row counts as being in the current month. -/
def aejConsumed (st : St) (clientId : String) : Nat :=
  (st.aej_logs.map (fun e => if e.client_id = clientId then e.aej_used else 0)).sum

/-- `SELECT COALESCE(SUM(aej_estimated),0) FROM c360_aej_holds WHERE
client_id=$1 AND status='held'`. -/
def heldTotal (st : St) (clientId : String) : Nat :=
  (st.holds.map (fun h =>
    if h.client_id = clientId ∧ h.status = "held" then h.aej_estimated else 0)).sum

/-- Ledger sum restricted to a stage set, for the billing breakdown. -/
def aejConsumedStages (st : St) (clientId : String) (stages : List String) : Nat :=
  (st.aej_logs.map (fun e =>
    if e.client_id = clientId ∧ e.stage ∈ stages then e.aej_used else 0)).sum

/-- `UPDATE c360_jobs SET ... WHERE id=$1` at the table level: the patch
is applied to every row whose id matches. -/
def setJobL (jobs : List Job) (jobId : Nat) (patch : Job → Job) : List Job :=
  jobs.map (fun j => if j.id = jobId then patch j else j)

/-- `UPDATE c360_jobs SET ... WHERE id=$1`. -/
def setJobP (st : St) (jobId : Nat) (patch : Job → Job) : St :=
  { st with jobs := setJobL st.jobs jobId patch }

/-- Worker-side `releaseHold`: `UPDATE c360_aej_holds SET status='released'
WHERE job_id=$1 AND client_id=$2 AND status='held'` (idempotent). -/
def releaseHold (holds : List Hold) (jobId : Nat) (clientId : String) : List Hold :=
  holds.map (fun h =>
    if h.job_id = jobId ∧ h.client_id = clientId ∧ h.status = "held"
    then { h with status := "released" } else h)

/-- Admin-endpoint hold release: same update but with no client filter. -/
def releaseHoldAdmin (holds : List Hold) (jobId : Nat) : List Hold :=
  holds.map (fun h =>
    if h.job_id = jobId ∧ h.status = "held"
    then { h with status := "released" } else h)

/-- API-side `logJobEvent` (its own failures are swallowed and are not
modelled; the worker-side variant below carries an injectable fault). -/
def logJobEventApi (st : St) (e : EventRecord) : St :=
  { st with events := st.events ++ [e] }

/- ----------------------- admission: validation ----------------------- -/

/-- `ALLOWED_MODES`. -/
def ALLOWED_MODES : List String := ["quick_boost", "full_content", "ecom_catalog"]

/-- `AEJ_ESTIMATE_PER_ITEM`: conservative AEJ estimates per item. -/
def AEJ_ESTIMATE_PER_ITEM : List (String × Nat) :=
  [("quick_boost", 8), ("full_content", 12), ("ecom_catalog", 12)]

/-- `AEJ_ESTIMATE_PER_ITEM[mode] || 8`. -/
def perItemCost (mode : String) : Nat :=
  (AEJ_ESTIMATE_PER_ITEM.lookup mode).getD 8

/-- `Math.max(1, Number(per) * itemsCount)`. -/
def aejEstimate (mode : String) (itemsCount : Nat) : Nat :=
  max 1 (perItemCost mode * itemsCount)

/-- Per-item validation errors of `validateCreatePayload`, in source
order: shape check (with early return), unexpected keys, then the five
field checks. -/
def itemErrors (idx : Nat) (it : Json) : List String :=
  match it with
  | .obj kvs =>
    let allowedItem := ["entity_type", "entity_id", "lang", "source_title", "source_excerpt"]
    let keyErrs := (kvs.map Prod.fst).filterMap (fun k =>
      if k ∈ allowedItem then none
      else some ("items[" ++ toString idx ++ "] unexpected field: " ++ k))
    let et := jsStrField (jsLookup it "entity_type")
    let ei := jsStrField (jsLookup it "entity_id")
    let lang := jsStrField (jsLookup it "lang")
    let st := jsStrField (jsLookup it "source_title")
    let se := jsStrField (jsLookup it "source_excerpt")
    keyErrs
    ++ (if et ∈ ["product", "page", "post"] then []
        else ["items[" ++ toString idx ++ "] invalid entity_type: "
              ++ (if et = "" then "(empty)" else et)])
    ++ (if ei = "" then ["items[" ++ toString idx ++ "] entity_id_required"] else [])
    ++ (if lang = "" ∨ lang.length < 2 ∨ lang.length > 10
        then ["items[" ++ toString idx ++ "] invalid lang: "
              ++ (if lang = "" then "(empty)" else lang)]
        else [])
    ++ (if st = "" then ["items[" ++ toString idx ++ "] source_title_required"] else [])
    ++ (if se = "" then ["items[" ++ toString idx ++ "] source_excerpt_required"] else [])
  | _ => ["items[" ++ toString idx ++ "] must be an object"]

/-- `Array.isArray(body.items) ? body.items : null`. -/
def itemsField (body : Json) : Option (List Json) :=
  match jsLookup body "items" with
  | some (.arr xs) => some xs
  | _ => none

/-- `validateCreatePayload`: returns `(mode, items)` on success, the
accumulated error list otherwise. -/
def validateCreatePayload (body : Json) : Except (List String) (String × List Json) :=
  match body with
  | .obj kvs =>
    let topErrs := (kvs.map Prod.fst).filterMap (fun k =>
      if k ∈ ["mode", "items"] then none
      else some ("unexpected top-level field: " ++ k))
    let mode := jsStrField (jsLookup (Json.obj kvs) "mode")
    let modeErrs :=
      if mode ∈ ALLOWED_MODES then []
      else ["invalid mode: " ++ (if mode = "" then "(empty)" else mode)]
    let itemsOpt := itemsField (Json.obj kvs)
    let cntErrs :=
      (match itemsOpt with
       | none => ["items_required"]
       | some xs => if xs.length < 1 then ["items_required"] else [])
      ++ (match itemsOpt with
          | some xs => if xs.length > 50 then ["items_max_50"] else []
          | none => [])
    let perItem :=
      match itemsOpt with
      | some xs => (xs.enum.map (fun p => itemErrors p.1 p.2)).flatten
      | none => []
    let errors := topErrs ++ modeErrs ++ cntErrs ++ perItem
    if errors = [] then .ok (mode, itemsOpt.getD []) else .error errors
  | _ => .error ["body must be an object"]

/- ----------------------- admission: POST /v1/jobs/create ----------------------- -/

/-- Outcome of `POST /v1/jobs/create`, carrying exactly the fields the
endpoint puts in its JSON response. -/
inductive CreateResult where
  | schemaInvalid (details : List String)
  | idemHit (job_id : Nat) (status : String) (idempotent : Bool)
  | quotaExceeded (plan : String) (monthly_quota_aej aej_consumed aej_held
      aej_needed aej_remaining : Nat)
  | created (job_id : Nat) (status : String) (aej_estimated : Nat)
deriving Repr

/-- The conditional `c360_idempotency` insert of admission (only when a
token was supplied). -/
def insertIdemRecord (st : St) (clientId : String) (idemKey : Option String)
    (jobId : Nat) : St :=
  match idemKey with
  | some k => { st with idem := st.idem ++
      [{ client_id := clientId, idem_key := k, job_id := jobId }] }
  | none => st

/-- `POST /v1/jobs/create` (after auth): validation, idempotency lookup,
quota check, then the atomic insert of job + hold (+ idempotency record),
followed by the post-commit enqueue and `created` event.  `idemKey` is
the already-extracted `Idempotency-Key` header value. -/
def createJob (st : St) (clientId : String) (body : Json)
    (idemKey : Option String) : CreateResult × St :=
  match validateCreatePayload body with
  | .error es => (.schemaInvalid es, st)
  | .ok (mode, items) =>
    let itemsCount := items.length
    let aejEstimated := aejEstimate mode itemsCount
    match idemKey.bind (fun k => lookupIdem st clientId k) with
    | some existingJobId =>
      (.idemHit existingJobId "queued" true,
       logJobEventApi st
         { job_id := toString existingJobId, client_id := clientId,
           event_type := "idempotent_hit",
           message := some "Idempotency hit: returning existing job", meta := none })
    | none =>
      let plan := planOf st clientId
      let quota := quotaOf st clientId
      let consumed := aejConsumed st clientId
      let held := heldTotal st clientId
      if consumed + held + aejEstimated > quota then
        (.quotaExceeded plan quota consumed held aejEstimated
           (quota - consumed - held), st)
      else
        let jobId := st.nextId
        let job : Job :=
          { id := jobId, client_id := clientId, mode := mode, status := "queued",
            progress := 0, request_json := some body, idempotency_key := idemKey,
            aej_estimated := aejEstimated, aej_final := none, error_text := none,
            result_json := none, finished_at := none }
        let st1 : St := { st with jobs := st.jobs ++ [job], nextId := st.nextId + 1 }
        let st2 : St := { st1 with holds := st1.holds ++
          [{ job_id := jobId, client_id := clientId,
             aej_estimated := aejEstimated, status := "held" }] }
        let st3 : St := insertIdemRecord st2 clientId idemKey jobId
        -- COMMIT; enqueue after commit, then the "created" event.
        let st4 : St := { st3 with queue := st3.queue ++ [jobId] }
        let st5 := logJobEventApi st4
          { job_id := toString jobId, client_id := clientId, event_type := "created",
            message := some "Job created & enqueued",
            meta := some (.obj [("mode", .str mode),
                                ("items_count", .num itemsCount),
                                ("aej_estimated", .num aejEstimated)]) }
        (.created jobId "queued" aejEstimated, st5)

/- ----------------------- billing summary ----------------------- -/

/-- Response of `fetchBillingSummary` (the `month` string is derived from
the wall clock and is outside the model). -/
structure BillingSummary where
  plan : String
  monthly_quota_aej : Nat
  aej_consumed : Nat
  aej_held : Nat
  aej_remaining : Nat
  breakdown_analysis : Nat
  breakdown_writing : Nat
  breakdown_followup : Nat
  aej_balance : Int
deriving Repr

/-- `fetchBillingSummary` (used by `/v1/billing/me` and `/v1/aej/balance`). -/
def fetchBillingSummary (st : St) (clientId : String) : BillingSummary :=
  let quota := quotaOf st clientId
  let consumed := aejConsumed st clientId
  let held := heldTotal st clientId
  { plan := planOf st clientId
    monthly_quota_aej := quota
    aej_consumed := consumed
    aej_held := held
    aej_remaining := quota - consumed - held
    breakdown_analysis := aejConsumedStages st clientId ["analyse", "decision"]
    breakdown_writing := aejConsumedStages st clientId ["generation", "application"]
    breakdown_followup := aejConsumedStages st clientId ["suivi"]
    aej_balance := ((st.clients.find? (fun c => c.id = clientId)).map
      (fun c => c.aej_balance)).getD 0 }

/- ----------------------- worker: helpers ----------------------- -/

/-- `normalizeMode`: empty/falsy mode maps to `quick_boost`, the legacy
name `full` maps to `full_content`. -/
def normalizeMode (mode : String) : String :=
  if mode = "" then "quick_boost"
  else if mode = "full" then "full_content"
  else mode

/-- `pickPromptAndSchema` succeeds exactly on the three supported modes;
any other mode throws `Unsupported mode: ...` (caught by the generation
try/catch). -/
def supportedMode (mode : String) : Bool :=
  mode = "quick_boost" ∨ mode = "full_content" ∨ mode = "ecom_catalog"

/-- `buildDeterministicFallback`: minimal placeholder result per mode
(any unrecognised mode falls through to the quick_boost shape). -/
def buildDeterministicFallback (mode : String) : Json :=
  if mode = "ecom_catalog" then
    .obj [("mode", .str "ecom_catalog"),
          ("product", .obj
            [("short_description", .str "Description courte (fallback)."),
             ("long_description_html", .str "<p>Description longue (fallback).</p>"),
             ("bullets", .arr [.str "Point 1", .str "Point 2", .str "Point 3"]),
             ("specs", .arr [])]),
          ("seo", .obj
            [("focus_keyword", .str ""),
             ("tags", .arr []),
             ("meta_title", .str "Titre (fallback)"),
             ("meta_description", .str "Meta description (fallback)")])]
  else if mode = "full_content" then
    .obj [("mode", .str "full_content"),
          ("title", .str "Titre (fallback)"),
          ("meta_description", .str "Meta description (fallback)"),
          ("outline", .arr [.str "H2 1", .str "H2 2", .str "H2 3"]),
          ("intro", .str "Intro (fallback)."),
          ("sections", .arr [.obj [("h2", .str "H2 1"),
                                   ("content", .str "Contenu (fallback).")]]),
          ("faq", .arr [.obj [("q", .str "Question ?"),
                              ("a", .str "Réponse (fallback).")]]),
          ("tags", .arr [.str "fallback"])]
  else
    .obj [("mode", .str "quick_boost"),
          ("title", .str "Titre (fallback)"),
          ("meta_description", .str "Meta description (fallback)"),
          ("intro", .str "Intro (fallback)."),
          ("reassurance", .arr [.str "Livraison", .str "Paiement sécurisé",
                                .str "Support"]),
          ("faq", .arr [.obj [("q", .str "Question ?"),
                              ("a", .str "Réponse (fallback).")]])]

/-- The effective generation mode of a worker run:
`normalizeMode(reqJson.mode || dbJob.mode)` as computed by the
processor from the stored request payload and the job row's mode. -/
def effMode (reqJson : Json) (dbMode : String) : String :=
  normalizeMode
    (match jsLookup reqJson "mode" with
     | some v => if jsTruthy v then jsToString v else dbMode
     | none => dbMode)

/-- Injectable failures of the observability writes performed during one
worker run.  `eventFail` makes every `c360_job_events` insert fail (the
worker's `logJobEvent` swallows this).  `decisionFail1`/`decisionFail2`
make the `analysed` / `modified` `c360_decision_log` insert throw
(`logDecision` has no try/catch, so this propagates).  The thrown DB
error message is environmental and abstracted to a fixed string. -/
structure Faults where
  eventFail : Bool
  decisionFail1 : Bool
  decisionFail2 : Bool
deriving Repr, DecidableEq

/-- Fault-free run. -/
def noFaults : Faults := ⟨false, false, false⟩

/-- Worker-side `logJobEvent`: best-effort insert, failures swallowed. -/
def logJobEventW (f : Faults) (st : St) (e : EventRecord) : St :=
  if f.eventFail then st else { st with events := st.events ++ [e] }

/-- Ledger insert with `ON CONFLICT (client_id, job_id, stage) DO NOTHING`,
at the table level. -/
def logAEJL (logs : List LedgerEntry) (e : LedgerEntry) : List LedgerEntry :=
  if logs.any (fun x =>
      x.client_id = e.client_id ∧ x.job_id = e.job_id ∧ x.stage = e.stage)
  then logs else logs ++ [e]

/-- `logAEJ`: ledger insert with
`ON CONFLICT (client_id, job_id, stage) DO NOTHING`. -/
def logAEJ (st : St) (clientId : String) (jobId : Nat) (stage : String)
    (aejUsed : Nat) : St :=
  let e : LedgerEntry :=
    { client_id := clientId, job_id := jobId, stage := stage, aej_used := aejUsed }
  { st with aej_logs := logAEJL st.aej_logs e }

/-- `inferContentMeta`: denormalised content identity guessed from the
request payload via fallback chains of optional synonyms. -/
def inferContentMeta (reqJson : Json) : Json × Json × String :=
  let first : Json :=
    match jsLookup reqJson "items" with
    | some (.arr (x :: _)) => x
    | _ => .obj []
  let content_source := firstTruthy
    [jsLookup reqJson "content_source", jsLookup first "content_source"] (.str "wp")
  let content_type := firstTruthy
    [jsLookup reqJson "content_type", jsLookup first "content_type",
     jsLookup first "type"] (.str "page")
  let content_id := jsToString (firstTruthy
    [jsLookup reqJson "content_id", jsLookup first "content_id",
     jsLookup first "wp_id", jsLookup first "post_id", jsLookup first "id",
     jsLookup first "entity_id"] (.str "unknown"))
  (content_source, content_type, content_id)

/-- `logDecision` insert (assuming it does not throw):
`ON CONFLICT (client_id, job_id, decision_type) DO NOTHING`. -/
def logDecisionIns (st : St) (clientId : String) (jobId : Nat) (reqJson : Json)
    (decisionType decisionReason : String) : St :=
  if st.decisions.any (fun d =>
      d.client_id = clientId ∧ d.job_id = jobId ∧ d.decision_type = decisionType)
  then st
  else
    let meta := inferContentMeta reqJson
    { st with decisions := st.decisions ++
      [{ client_id := clientId, job_id := jobId, content_source := meta.1,
         content_type := meta.2.1, content_id := meta.2.2,
         decision_type := decisionType, decision_reason := decisionReason }] }

/-- `computeAEJTotal`: `SELECT COALESCE(SUM(aej_used),0) FROM c360_aej_logs
WHERE client_id=$1 AND job_id=$2`. -/
def computeAEJTotal (st : St) (clientId : String) (jobId : Nat) : Nat :=
  (st.aej_logs.map (fun e =>
    if e.client_id = clientId ∧ e.job_id = jobId then e.aej_used else 0)).sum

/-- The `result_json` document persisted on success:
`{ ok: true, results: [{ exec, source, llm_error, status: "ready_to_review" }] }`. -/
def mkResultPayload (exec : Json) (source : String) (llmError : Option String) : Json :=
  .obj [("ok", .bool true),
        ("results", .arr [.obj
          [("exec", exec),
           ("source", .str source),
           ("llm_error", match llmError with | none => .null | some m => .str m),
           ("status", .str "ready_to_review")]])]

/-- Worker-side hold release applied to the store. -/
def releaseHoldSt (st : St) (jobId : Nat) (clientId : String) : St :=
  { st with holds := releaseHold st.holds jobId clientId }

/-- Outcome of one BullMQ delivery of a job. -/
inductive WorkerResult where
  | skippedDone
  | skippedCanceled
  | completed (job_id : Nat)
  | failed (msg : String)
deriving Repr, DecidableEq

/-- Result of a worker run: the new store, the run outcome, and whether
`callOpenAI` was invoked during the run. -/
structure ProcOut where
  st : St
  res : WorkerResult
  openai_called : Bool

/-- The `worker.on("failed", ...)` cleanup handler: mark the job `error`
with the captured message, log an `error` event (best-effort), release
the hold. -/
def failedHandler (f : Faults) (st : St) (jobId : Nat) (msg : String) : St :=
  match findJob st jobId with
  | none => st
  | some dbJob =>
    let st1 := setJobP st jobId (fun j =>
      { j with status := "error", progress := 100, error_text := some msg })
    let st2 := logJobEventW f st1
      { job_id := toString jobId, client_id := dbJob.client_id,
        event_type := "error", message := some "Job failed",
        meta := some (.obj [("error", .str msg)]) }
    releaseHoldSt st2 jobId dbJob.client_id

/-- The generation stage of the worker processor: the body of the
`try { forced check; pickPromptAndSchema; openai_call event; callOpenAI;
openai_ok event } catch` block.  Returns the updated store, the backend
result if any, the `source`, the captured `llm_error`, and whether
`callOpenAI` was invoked. -/
def runGeneration (f : Faults) (st : St) (cid : String) (jobId : Nat)
    (mode : String) (forced : Bool) (backend : Except String Json) :
    St × Option Json × String × Option String × Bool :=
  if forced then (st, none, "deterministic", some "force_degraded", false)
  else if supportedMode mode then
    let st1 := logJobEventW f st
      { job_id := toString jobId, client_id := cid,
        event_type := "openai_call", message := some "Calling OpenAI",
        meta := none }
    match backend with
    | .ok v =>
      (logJobEventW f st1
        { job_id := toString jobId, client_id := cid,
          event_type := "openai_ok", message := some "OpenAI returned",
          meta := none }, some v, "openai", none, true)
    | .error m => (st1, none, "deterministic", some m, true)
  else (st, none, "deterministic", some ("Unsupported mode: " ++ mode), false)

/-- The `if (!exec)` deterministic-fallback block: substitute the
placeholder result and log a `fallback` event when the backend produced
nothing (or a falsy value, which `callOpenAI` cannot actually return). -/
def applyFallback (f : Faults) (st : St) (cid : String) (jobId : Nat)
    (mode : String) (execOpt : Option Json) (llmError : Option String) :
    St × Json :=
  let fallbackSt := logJobEventW f st
    { job_id := toString jobId, client_id := cid,
      event_type := "fallback", message := some "Using deterministic fallback",
      meta := some (.obj [("llm_error",
        match llmError with | none => .null | some m => .str m)]) }
  match execOpt with
  | some v =>
    if jsTruthy v then (st, v)
    else (fallbackSt, buildDeterministicFallback mode)
  | none => (fallbackSt, buildDeterministicFallback mode)

/-- One delivery of `{ job_id: jobId }` to the worker processor.
`forced` is the value observed for the `force_degraded` flag (the 5 s
cache makes this a point-in-time read), `backend` is the outcome of
`callOpenAI` for this run (its argument prompt/schema are opaque to the
model), `f` injects observability-write failures.  A processor throw is
followed by the `failed`-event cleanup handler, as BullMQ does on the
final attempt. -/
def processJob (st0 : St) (jobId : Nat) (forced : Bool)
    (backend : Except String Json) (f : Faults) : ProcOut :=
  match findJob st0 jobId with
  | none =>
    -- throw `job_not_found:<id>`; the failed handler reloads the job,
    -- finds nothing and returns without writing.
    ⟨st0, .failed ("job_not_found:" ++ toString jobId), false⟩
  | some dbJob =>
    if dbJob.status = "done" then ⟨st0, .skippedDone, false⟩
    else if dbJob.status = "canceled" then
      ⟨releaseHoldSt st0 jobId dbJob.client_id, .skippedCanceled, false⟩
    else
      let st := setJobP st0 jobId (fun j =>
        { j with status := "running", progress := 10 })
      let st := logJobEventW f st
        { job_id := toString jobId, client_id := dbJob.client_id,
          event_type := "running", message := some "Job started", meta := none }
      match dbJob.request_json with
      | none =>
        ⟨failedHandler f st jobId "missing_request_json",
         .failed "missing_request_json", false⟩
      | some reqJson =>
        -- `normalizeMode(reqJson.mode || dbJob.mode)`
        let mode := normalizeMode
          (match jsLookup reqJson "mode" with
           | some v => if jsTruthy v then jsToString v else dbJob.mode
           | none => dbJob.mode)
        let st := logAEJ st dbJob.client_id jobId "analyse" 1
        if f.decisionFail1 then
          ⟨failedHandler f st jobId "decision_insert_failed",
           .failed "decision_insert_failed", false⟩
        else
        let st := logDecisionIns st dbJob.client_id jobId reqJson "analysed"
          "Analyse effectuée et mode de génération sélectionné."
        let st := logAEJ st dbJob.client_id jobId "decision" 1
        let st := setJobP st jobId (fun j => { j with progress := 30 })
        let gen := runGeneration f st dbJob.client_id jobId mode forced backend
        let st := gen.1
        let execOpt := gen.2.1
        let source := gen.2.2.1
        let llmError := gen.2.2.2.1
        let called := gen.2.2.2.2
        let st := logAEJ st dbJob.client_id jobId "generation"
          (if source = "openai" then 5 else 1)
        let fb := applyFallback f st dbJob.client_id jobId mode execOpt llmError
        let st := fb.1
        let exec := fb.2
        let resultPayload := mkResultPayload exec source llmError
        let st := setJobP st jobId (fun j =>
          { j with status := "done", progress := 100,
                   result_json := some resultPayload })
        let st := logJobEventW f st
          { job_id := toString jobId, client_id := dbJob.client_id,
            event_type := "done", message := some "Job finished", meta := none }
        if f.decisionFail2 then
          ⟨failedHandler f st jobId "decision_insert_failed",
           .failed "decision_insert_failed", called⟩
        else
        let st := logDecisionIns st dbJob.client_id jobId reqJson "modified"
          (if source = "openai" then "Optimisation IA générée et prête à être appliquée."
           else "Fallback utilisé : optimisation prête à être appliquée.")
        let st := logAEJ st dbJob.client_id jobId "application" 1
        let aejFinal := computeAEJTotal st dbJob.client_id jobId
        let st := setJobP st jobId (fun j => { j with aej_final := some aejFinal })
        let st := releaseHoldSt st jobId dbJob.client_id
        ⟨st, .completed jobId, called⟩

/- ----------------------- admin endpoints ----------------------- -/

/-- Response of `POST /v1/admin/jobs/:id/cancel`. -/
inductive CancelResult where
  | notFound
  | alreadyFinal (status : String)
  | canceled (job_id : Nat)
deriving Repr, DecidableEq

/-- `POST /v1/admin/jobs/:id/cancel`: refuse on `done`/`error`, else mark
`canceled`, remove the pending BullMQ entry, release any held hold (no
client filter), and log a `canceled` event. -/
def adminCancelJob (st : St) (jobId : Nat) : CancelResult × St :=
  match findJob st jobId with
  | none => (.notFound, st)
  | some dbJob =>
    if dbJob.status = "done" ∨ dbJob.status = "error" then
      (.alreadyFinal dbJob.status, st)
    else
      let st1 := setJobP st jobId (fun j =>
        { j with status := "canceled",
                 error_text := some (j.error_text.getD "") })
      let st2 : St := { st1 with queue := st1.queue.filter (fun q => q ≠ jobId) }
      let st3 : St := { st2 with holds := releaseHoldAdmin st2.holds jobId }
      let st4 := logJobEventApi st3
        { job_id := toString jobId, client_id := dbJob.client_id,
          event_type := "canceled", message := some "Canceled by admin", meta := none }
      (.canceled jobId, st4)

/-- Response of the retry endpoints. -/
inductive RetryResult where
  | notFound
  | retried (job_id : Nat) (status : String)
deriving Repr, DecidableEq

/-- `POST /v1/admin/jobs/:id/retry`: reset the job to
`queued, progress=0, error_text=NULL, result_json=NULL` (this UPDATE does
not touch `finished_at`), re-insert a hold via
`INSERT ... SELECT ... ON CONFLICT DO NOTHING` (the conflict target is
the `job_id` primary key, so any existing hold row — held or released —
suppresses the insert; `COALESCE(aej_estimated,1)` is the job's estimate,
which is non-null), re-enqueue, and log a `retry` event. -/
def adminRetryJob (st : St) (jobId : Nat) : RetryResult × St :=
  match findJob st jobId with
  | none => (.notFound, st)
  | some dbJob =>
    let st1 := setJobP st jobId (fun j =>
      { j with status := "queued", progress := 0, error_text := none,
               result_json := none })
    let st2 : St :=
      if st1.holds.any (fun h => h.job_id = jobId) then st1
      else { st1 with holds := st1.holds ++
        [{ job_id := jobId, client_id := dbJob.client_id,
           aej_estimated := dbJob.aej_estimated, status := "held" }] }
    let st3 : St := { st2 with queue := st2.queue ++ [jobId] }
    let st4 := logJobEventApi st3
      { job_id := toString jobId, client_id := dbJob.client_id,
        event_type := "retry", message := some "Retried by admin", meta := none }
    (.retried jobId "queued", st4)

/-- The `retryJob` helper used by the session-UI route: same job reset
but additionally clearing `finished_at`, no hold insert at all, then
re-enqueue and `retry` event. -/
def retryJob (st : St) (jobId : Nat) : RetryResult × St :=
  match findJob st jobId with
  | none => (.notFound, st)
  | some dbJob =>
    let st1 := setJobP st jobId (fun j =>
      { j with status := "queued", progress := 0, error_text := none,
               result_json := none, finished_at := none })
    let st2 : St := { st1 with queue := st1.queue ++ [jobId] }
    let st3 := logJobEventApi st2
      { job_id := toString jobId, client_id := dbJob.client_id,
        event_type := "retry", message := some "Retried by admin", meta := none }
    (.retried jobId "queued", st3)

/- ----------------------- quick_boost output schema ----------------------- -/

/-- `type: "string"` with `minLength`/`maxLength` (JSON Schema counts
string length; all strings involved are plain BMP text). -/
def checkStr (minL maxL : Nat) : Json → Bool
  | .str s => minL ≤ s.length ∧ s.length ≤ maxL
  | _ => false

/-- `type: "array"` with item bounds and an item checker. -/
def checkArr (minI maxI : Nat) (item : Json → Bool) : Json → Bool
  | .arr xs => minI ≤ xs.length ∧ xs.length ≤ maxI ∧ xs.all item
  | _ => false

/-- `type: "object"` with `additionalProperties: false`: every present
key must be a known property and satisfy its checker, every required key
must be present. -/
def checkObj (props : List (String × (Json → Bool))) (required : List String) :
    Json → Bool
  | .obj kvs =>
    kvs.all (fun kv =>
      match props.lookup kv.1 with
      | some chk => chk kv.2
      | none => false)
    ∧ required.all (fun r => (kvs.map Prod.fst).contains r)
  | _ => false

/-- `QUICK_BOOST_SCHEMA.schema`: the strict output shape required from
the backend for `quick_boost` jobs. -/
def checkQuickBoost : Json → Bool :=
  checkObj
    [("mode", fun j => j matches .str "quick_boost"),
     ("title", checkStr 15 70),
     ("meta_description", checkStr 120 170),
     ("intro", checkStr 120 600),
     ("h2", checkArr 3 6 (checkStr 6 80)),
     ("faq", checkArr 0 4 (checkObj
        [("q", checkStr 8 120), ("a", checkStr 20 300)] ["q", "a"])),
     ("seo", checkObj
        [("focus_keyword", checkStr 3 40),
         ("tags", checkArr 0 8 (checkStr 2 30))]
        ["focus_keyword", "tags"])]
    ["mode", "title", "meta_description", "intro", "h2", "faq", "seo"]

/- ----------------------- sequential executions ----------------------- -/

/-- One operation of a sequential execution: an admission call or one
worker delivery (settlement).  Settlements run to completion; the
injectable faults of `Faults` are limited to the swallowed event-log
failures (`eventFail`), decision-log inserts succeed. -/
inductive Step where
  | adm (clientId : String) (body : Json) (idemKey : Option String)
  | settle (jobId : Nat) (forced : Bool) (backend : Except String Json)
      (eventFail : Bool)

/-- Apply one step to the store. -/
def applyStep (st : St) (s : Step) : St :=
  match s with
  | .adm clientId body idemKey => (createJob st clientId body idemKey).2
  | .settle jobId forced backend eventFail =>
    (processJob st jobId forced backend ⟨eventFail, false, false⟩).st

/-- State after a sequential execution of admissions and settlements
from an empty store. -/
def execSteps (settings : List SiteSetting) (clients : List Client)
    (steps : List Step) : St :=
  steps.foldl applyStep (initState settings clients)

/- ----------------------- concrete fixtures ----------------------- -/

/-- A well-formed request item. -/
def demoItem : Json :=
  .obj [("entity_type", .str "page"), ("entity_id", .str "p1"),
        ("lang", .str "fr"), ("source_title", .str "T"),
        ("source_excerpt", .str "E")]

/-- A request body `{ mode, items }`. -/
def mkCreateBody (mode : String) (items : List Json) : Json :=
  .obj [("mode", .str mode), ("items", .arr items)]

/-- Tenant `t1` on the starter plan with monthly quota 20 and one open
hold of 8 from a prior 1-item `quick_boost` job (job id 0). -/
def demoHeldState : St :=
  { initState [{ client_id := "t1", plan_code := some "starter",
                 monthly_quota_aej := some 20 }] [] with
    holds := [{ job_id := 0, client_id := "t1", aej_estimated := 8,
                status := "held" }] }

/-- A store holding one finished job (id 7) and an idempotency record
for token `tok` pointing at it. -/
def c9State : St :=
  { initState [] [] with
    jobs := [{ id := 7, client_id := "t1", mode := "quick_boost",
               status := "done", progress := 100, request_json := none,
               idempotency_key := some "tok", aej_estimated := 8,
               aej_final := some 8, error_text := none, result_json := none,
               finished_at := none }],
    idem := [{ client_id := "t1", idem_key := "tok", job_id := 7 }],
    nextId := 8 }

/-- Tenant `t1`'s queued 1-item `quick_boost` job (id 1) awaiting
delivery, with its request payload stored. -/
def queuedJob : Job :=
  { id := 1, client_id := "t1", mode := "quick_boost", status := "queued",
    progress := 0, request_json := some (mkCreateBody "quick_boost" [demoItem]),
    idempotency_key := none, aej_estimated := 8, aej_final := none,
    error_text := none, result_json := none, finished_at := none }

/-- Store holding `queuedJob` with its held hold of 8, enqueued, under
tenant `t1`'s quota-20 settings. -/
def queuedState : St :=
  { initState [{ client_id := "t1", plan_code := some "starter",
                 monthly_quota_aej := some 20 }] [] with
    jobs := [queuedJob],
    holds := [{ job_id := 1, client_id := "t1", aej_estimated := 8,
                status := "held" }],
    queue := [1], nextId := 2 }

/-- Store holding a finished (`done`) job (id 1, `finished_at` 5) whose
hold row was already released by the worker settlement. -/
def retryDemoState : St :=
  { initState [] [] with
    jobs := [{ id := 1, client_id := "t1", mode := "quick_boost",
               status := "done", progress := 100, request_json := none,
               idempotency_key := none, aej_estimated := 8,
               aej_final := some 4, error_text := none, result_json := none,
               finished_at := some 5 }],
    holds := [{ job_id := 1, client_id := "t1", aej_estimated := 8,
                status := "released" }],
    nextId := 2 }

/-- The store- and fault-independent data outcome of the generation
stage: the backend result if any, the `source`, the captured
`llm_error`, and whether `callOpenAI` was invoked. -/
def genPure (mode : String) (forced : Bool) (backend : Except String Json) :
    Option Json × String × Option String × Bool :=
  if forced then (none, "deterministic", some "force_degraded", false)
  else if supportedMode mode then
    match backend with
    | .ok v => (some v, "openai", none, true)
    | .error m => (none, "deterministic", some m, true)
  else (none, "deterministic", some ("Unsupported mode: " ++ mode), false)

/-- The data outcome of the `if (!exec)` fallback substitution. -/
def fbPure (mode : String) (execOpt : Option Json) : Json :=
  match execOpt with
  | some v => if jsTruthy v then v else buildDeterministicFallback mode
  | none => buildDeterministicFallback mode

/-- The store with the best-effort event log cleared: two stores equal
up to `stripEvents` differ at most in `c360_job_events`. -/
def stripEvents (st : St) : St := { st with events := [] }

/- ----------------------- basic lemmas: sums ----------------------- -/

/-- Contribution of one ledger row to a tenant's consumption. -/
def ledgerContrib (c : String) (e : LedgerEntry) : Nat :=
  if e.client_id = c then e.aej_used else 0

/-- Contribution of one hold row to a tenant's held total. -/
def holdContrib (c : String) (h : Hold) : Nat :=
  if h.client_id = c ∧ h.status = "held" then h.aej_estimated else 0

theorem aejConsumed_eq (st : St) (c : String) :
    aejConsumed st c = (st.aej_logs.map (ledgerContrib c)).sum := rfl

theorem heldTotal_eq (st : St) (c : String) :
    heldTotal st c = (st.holds.map (holdContrib c)).sum := rfl

@[simp] theorem aejConsumed_setJobP (st : St) (id : Nat) (p : Job → Job)
    (c : String) : aejConsumed (setJobP st id p) c = aejConsumed st c := rfl

@[simp] theorem heldTotal_setJobP (st : St) (id : Nat) (p : Job → Job)
    (c : String) : heldTotal (setJobP st id p) c = heldTotal st c := rfl

@[simp] theorem quotaOf_setJobP (st : St) (id : Nat) (p : Job → Job)
    (c : String) : quotaOf (setJobP st id p) c = quotaOf st c := rfl

@[simp] theorem aejConsumed_logJobEventW (f : Faults) (st : St) (e : EventRecord)
    (c : String) : aejConsumed (logJobEventW f st e) c = aejConsumed st c := by
  unfold logJobEventW; split <;> rfl

@[simp] theorem heldTotal_logJobEventW (f : Faults) (st : St) (e : EventRecord)
    (c : String) : heldTotal (logJobEventW f st e) c = heldTotal st c := by
  unfold logJobEventW; split <;> rfl

@[simp] theorem quotaOf_logJobEventW (f : Faults) (st : St) (e : EventRecord)
    (c : String) : quotaOf (logJobEventW f st e) c = quotaOf st c := by
  unfold logJobEventW; split <;> rfl

@[simp] theorem aejConsumed_logJobEventApi (st : St) (e : EventRecord)
    (c : String) : aejConsumed (logJobEventApi st e) c = aejConsumed st c := rfl

@[simp] theorem heldTotal_logJobEventApi (st : St) (e : EventRecord)
    (c : String) : heldTotal (logJobEventApi st e) c = heldTotal st c := rfl

@[simp] theorem quotaOf_logJobEventApi (st : St) (e : EventRecord)
    (c : String) : quotaOf (logJobEventApi st e) c = quotaOf st c := rfl

@[simp] theorem aejConsumed_logDecisionIns (st : St) (cid : String) (id : Nat)
    (rq : Json) (t r : String) (c : String) :
    aejConsumed (logDecisionIns st cid id rq t r) c = aejConsumed st c := by
  unfold logDecisionIns; split <;> rfl

@[simp] theorem heldTotal_logDecisionIns (st : St) (cid : String) (id : Nat)
    (rq : Json) (t r : String) (c : String) :
    heldTotal (logDecisionIns st cid id rq t r) c = heldTotal st c := by
  unfold logDecisionIns; split <;> rfl

@[simp] theorem quotaOf_logDecisionIns (st : St) (cid : String) (id : Nat)
    (rq : Json) (t r : String) (c : String) :
    quotaOf (logDecisionIns st cid id rq t r) c = quotaOf st c := by
  unfold logDecisionIns; split <;> rfl

@[simp] theorem heldTotal_logAEJ (st : St) (cid : String) (id : Nat)
    (stg : String) (a : Nat) (c : String) :
    heldTotal (logAEJ st cid id stg a) c = heldTotal st c := rfl

@[simp] theorem quotaOf_logAEJ (st : St) (cid : String) (id : Nat)
    (stg : String) (a : Nat) (c : String) :
    quotaOf (logAEJ st cid id stg a) c = quotaOf st c := rfl

/-- A conflict-guarded ledger insert adds at most the entry's cost to
any tenant's consumption. -/
theorem consumedL_logAEJL_le (logs : List LedgerEntry) (e : LedgerEntry)
    (c : String) :
    ((logAEJL logs e).map (ledgerContrib c)).sum
      ≤ (logs.map (ledgerContrib c)).sum + e.aej_used := by
  unfold logAEJL; split
  · exact Nat.le_add_right _ _
  · simp only [List.map_append, List.sum_append, List.map_cons,
      List.map_nil, List.sum_cons, List.sum_nil, ledgerContrib]
    split <;> omega

/-- A ledger insert for another tenant leaves consumption unchanged. -/
theorem consumedL_logAEJL_ne (logs : List LedgerEntry) (e : LedgerEntry)
    (c : String) (hne : e.client_id ≠ c) :
    ((logAEJL logs e).map (ledgerContrib c)).sum
      = (logs.map (ledgerContrib c)).sum := by
  unfold logAEJL; split
  · rfl
  · simp [ledgerContrib, hne]

/-- Releasing holds of one tenant leaves other tenants' held totals
unchanged. -/
theorem heldSum_releaseHold_ne (holds : List Hold) (id : Nat) (cid c : String)
    (hne : c ≠ cid) :
    ((releaseHold holds id cid).map (holdContrib c)).sum
      = (holds.map (holdContrib c)).sum := by
  unfold releaseHold
  rw [List.map_map]
  congr 1
  apply List.map_congr_left
  intro h _
  simp only [Function.comp_apply, holdContrib]
  split
  · rename_i hcond
    rw [if_neg (by rintro ⟨-, hbad⟩; simp at hbad),
        if_neg (by rintro ⟨h1, -⟩; exact hne (h1.symm.trans hcond.2.1))]
  · rfl

@[simp] theorem aej_logs_logAEJ (st : St) (cid : String) (id : Nat)
    (stg : String) (a : Nat) :
    (logAEJ st cid id stg a).aej_logs
      = logAEJL st.aej_logs
          { client_id := cid, job_id := id, stage := stg, aej_used := a } := rfl

/-- Releasing holds never increases any tenant's held total. -/
theorem heldSum_releaseHold_le (holds : List Hold) (id : Nat) (cid c : String) :
    ((releaseHold holds id cid).map (holdContrib c)).sum
      ≤ (holds.map (holdContrib c)).sum := by
  unfold releaseHold
  rw [List.map_map]
  apply List.sum_le_sum
  intro h _
  simp only [Function.comp_apply, holdContrib]
  split
  · split <;> simp_all
  · exact Nat.le_refl _

/-- Releasing the holds of a job that has a held hold of estimate `≥ k`
decreases that tenant's held total by at least `k`. -/
theorem heldSum_releaseHold_drop (holds : List Hold) (id : Nat) (cid : String)
    (k : Nat) (h0 : Hold) (hmem : h0 ∈ holds) (hid : h0.job_id = id)
    (hcid : h0.client_id = cid) (hst : h0.status = "held")
    (hk : k ≤ h0.aej_estimated) :
    ((releaseHold holds id cid).map (holdContrib cid)).sum + k
      ≤ (holds.map (holdContrib cid)).sum := by
  induction holds with
  | nil => cases hmem
  | cons hd tl ih =>
    rcases List.mem_cons.mp hmem with heq | htl
    · subst heq
      simp only [releaseHold, List.map_cons, List.map_map, List.sum_cons]
      rw [if_pos ⟨hid, hcid, hst⟩]
      have h1 : holdContrib cid { h0 with status := "released" } = 0 := by
        simp [holdContrib]
      have h2 : holdContrib cid h0 = h0.aej_estimated := by
        simp [holdContrib, hcid, hst]
      have h3 := heldSum_releaseHold_le tl id cid cid
      simp only [releaseHold, List.map_map] at h3
      omega
    · simp only [releaseHold, List.map_cons, List.map_map, List.sum_cons]
      have h3 := ih htl
      simp only [releaseHold, List.map_map] at h3
      have h4 : holdContrib cid (if hd.job_id = id ∧ hd.client_id = cid ∧
          hd.status = "held" then { hd with status := "released" } else hd)
          ≤ holdContrib cid hd := by
        split
        · simp [holdContrib]
        · exact Nat.le_refl _
      omega

/-- After `releaseHold`, no held hold for `(job, client)` remains. -/
theorem releaseHold_no_held (holds : List Hold) (id : Nat) (cid : String) :
    ∀ h ∈ releaseHold holds id cid,
      ¬(h.job_id = id ∧ h.client_id = cid ∧ h.status = "held") := by
  intro h hmem
  unfold releaseHold at hmem
  obtain ⟨h0, _, rfl⟩ := List.mem_map.mp hmem
  split
  · simp
  · intro hc; exact absurd hc (by assumption)

/-- After `releaseHoldAdmin`, no held hold for the job remains. -/
theorem releaseHoldAdmin_no_held (holds : List Hold) (id : Nat) :
    ∀ h ∈ releaseHoldAdmin holds id,
      ¬(h.job_id = id ∧ h.status = "held") := by
  intro h hmem
  unfold releaseHoldAdmin at hmem
  obtain ⟨h0, _, rfl⟩ := List.mem_map.mp hmem
  split
  · simp
  · intro hc; exact absurd hc (by assumption)

@[simp] theorem holds_setJobP (st : St) (id : Nat) (p : Job → Job) :
    (setJobP st id p).holds = st.holds := rfl

@[simp] theorem holds_logJobEventW (f : Faults) (st : St) (e : EventRecord) :
    (logJobEventW f st e).holds = st.holds := by
  unfold logJobEventW; split <;> rfl

@[simp] theorem holds_logJobEventApi (st : St) (e : EventRecord) :
    (logJobEventApi st e).holds = st.holds := rfl

@[simp] theorem holds_logAEJ (st : St) (cid : String) (id : Nat)
    (stg : String) (a : Nat) : (logAEJ st cid id stg a).holds = st.holds := rfl

@[simp] theorem holds_logDecisionIns (st : St) (cid : String) (id : Nat)
    (rq : Json) (t r : String) :
    (logDecisionIns st cid id rq t r).holds = st.holds := by
  unfold logDecisionIns; split <;> rfl

@[simp] theorem holds_releaseHoldSt (st : St) (id : Nat) (cid : String) :
    (releaseHoldSt st id cid).holds = releaseHold st.holds id cid := rfl

@[simp] theorem aejConsumed_releaseHoldSt (st : St) (id : Nat) (cid c : String) :
    aejConsumed (releaseHoldSt st id cid) c = aejConsumed st c := rfl

@[simp] theorem quotaOf_releaseHoldSt (st : St) (id : Nat) (cid c : String) :
    quotaOf (releaseHoldSt st id cid) c = quotaOf st c := rfl

@[simp] theorem jobs_logJobEventW (f : Faults) (st : St) (e : EventRecord) :
    (logJobEventW f st e).jobs = st.jobs := by
  unfold logJobEventW; split <;> rfl

@[simp] theorem jobs_logJobEventApi (st : St) (e : EventRecord) :
    (logJobEventApi st e).jobs = st.jobs := rfl

@[simp] theorem jobs_logAEJ (st : St) (cid : String) (id : Nat)
    (stg : String) (a : Nat) : (logAEJ st cid id stg a).jobs = st.jobs := rfl

@[simp] theorem jobs_logDecisionIns (st : St) (cid : String) (id : Nat)
    (rq : Json) (t r : String) :
    (logDecisionIns st cid id rq t r).jobs = st.jobs := by
  unfold logDecisionIns; split <;> rfl

@[simp] theorem jobs_releaseHoldSt (st : St) (id : Nat) (cid : String) :
    (releaseHoldSt st id cid).jobs = st.jobs := rfl

@[simp] theorem aej_logs_setJobP (st : St) (id : Nat) (p : Job → Job) :
    (setJobP st id p).aej_logs = st.aej_logs := rfl

@[simp] theorem aej_logs_logJobEventW (f : Faults) (st : St) (e : EventRecord) :
    (logJobEventW f st e).aej_logs = st.aej_logs := by
  unfold logJobEventW; split <;> rfl

@[simp] theorem aej_logs_logDecisionIns (st : St) (cid : String) (id : Nat)
    (rq : Json) (t r : String) :
    (logDecisionIns st cid id rq t r).aej_logs = st.aej_logs := by
  unfold logDecisionIns; split <;> rfl

@[simp] theorem aej_logs_releaseHoldSt (st : St) (id : Nat) (cid : String) :
    (releaseHoldSt st id cid).aej_logs = st.aej_logs := rfl

@[simp] theorem aej_logs_runGeneration (f : Faults) (st : St) (cid : String)
    (id : Nat) (m : String) (fo : Bool) (be : Except String Json) :
    (runGeneration f st cid id m fo be).1.aej_logs = st.aej_logs := by
  unfold runGeneration
  split
  · rfl
  split
  · split <;> simp
  · rfl

@[simp] theorem holds_runGeneration (f : Faults) (st : St) (cid : String)
    (id : Nat) (m : String) (fo : Bool) (be : Except String Json) :
    (runGeneration f st cid id m fo be).1.holds = st.holds := by
  unfold runGeneration
  split
  · rfl
  split
  · split <;> simp
  · rfl

@[simp] theorem jobs_runGeneration (f : Faults) (st : St) (cid : String)
    (id : Nat) (m : String) (fo : Bool) (be : Except String Json) :
    (runGeneration f st cid id m fo be).1.jobs = st.jobs := by
  unfold runGeneration
  split
  · rfl
  split
  · split <;> simp
  · rfl

@[simp] theorem aej_logs_applyFallback (f : Faults) (st : St) (cid : String)
    (id : Nat) (m : String) (e : Option Json) (l : Option String) :
    (applyFallback f st cid id m e l).1.aej_logs = st.aej_logs := by
  unfold applyFallback
  cases e with
  | none => simp
  | some v =>
    simp only []
    split <;> simp

@[simp] theorem holds_applyFallback (f : Faults) (st : St) (cid : String)
    (id : Nat) (m : String) (e : Option Json) (l : Option String) :
    (applyFallback f st cid id m e l).1.holds = st.holds := by
  unfold applyFallback
  cases e with
  | none => simp
  | some v =>
    simp only []
    split <;> simp

@[simp] theorem jobs_applyFallback (f : Faults) (st : St) (cid : String)
    (id : Nat) (m : String) (e : Option Json) (l : Option String) :
    (applyFallback f st cid id m e l).1.jobs = st.jobs := by
  unfold applyFallback
  cases e with
  | none => simp
  | some v =>
    simp only []
    split <;> simp

/-- Accounting for the four conflict-guarded stage charges of one run
plus the final hold release: if the job holds a held reservation of at
least 8 units and the stage charges total at most 8, no tenant's
`consumed + held` increases. -/
theorem settleAccounting (logs : List LedgerEntry) (holds : List Hold)
    (cid c : String) (id : Nat) (s1 s2 s3 s4 : String) (a1 a2 a3 a4 : Nat)
    (ha : a1 + a2 + a3 + a4 ≤ 8)
    (hhold : ∃ h ∈ holds, h.job_id = id ∧ h.client_id = cid ∧
      h.status = "held" ∧ 8 ≤ h.aej_estimated) :
    ((logAEJL (logAEJL (logAEJL (logAEJL logs
        ⟨cid, id, s1, a1⟩) ⟨cid, id, s2, a2⟩) ⟨cid, id, s3, a3⟩)
        ⟨cid, id, s4, a4⟩).map (ledgerContrib c)).sum
      + ((releaseHold holds id cid).map (holdContrib c)).sum
    ≤ (logs.map (ledgerContrib c)).sum + (holds.map (holdContrib c)).sum := by
  by_cases hc : c = cid
  · subst hc
    have l1 := consumedL_logAEJL_le logs ⟨c, id, s1, a1⟩ c
    have l2 := consumedL_logAEJL_le (logAEJL logs ⟨c, id, s1, a1⟩) ⟨c, id, s2, a2⟩ c
    have l3 := consumedL_logAEJL_le
      (logAEJL (logAEJL logs ⟨c, id, s1, a1⟩) ⟨c, id, s2, a2⟩) ⟨c, id, s3, a3⟩ c
    have l4 := consumedL_logAEJL_le
      (logAEJL (logAEJL (logAEJL logs ⟨c, id, s1, a1⟩) ⟨c, id, s2, a2⟩)
        ⟨c, id, s3, a3⟩) ⟨c, id, s4, a4⟩ c
    obtain ⟨h0, hm, hid, hcid, hst, hk⟩ := hhold
    have hd := heldSum_releaseHold_drop holds id c 8 h0 hm hid hcid hst hk
    simp only at l1 l2 l3 l4
    omega
  · have l1 := consumedL_logAEJL_ne logs ⟨cid, id, s1, a1⟩ c (fun h => hc h.symm)
    have l2 := consumedL_logAEJL_ne (logAEJL logs ⟨cid, id, s1, a1⟩)
      ⟨cid, id, s2, a2⟩ c (fun h => hc h.symm)
    have l3 := consumedL_logAEJL_ne
      (logAEJL (logAEJL logs ⟨cid, id, s1, a1⟩) ⟨cid, id, s2, a2⟩)
      ⟨cid, id, s3, a3⟩ c (fun h => hc h.symm)
    have l4 := consumedL_logAEJL_ne
      (logAEJL (logAEJL (logAEJL logs ⟨cid, id, s1, a1⟩) ⟨cid, id, s2, a2⟩)
        ⟨cid, id, s3, a3⟩) ⟨cid, id, s4, a4⟩ c (fun h => hc h.symm)
    have hh := heldSum_releaseHold_ne holds id cid c hc
    omega

/-- One full no-decision-fault settlement never increases any tenant's
`consumed + held`, provided that a queued delivered job is covered by a
held hold of estimate at least 8 (which admission guarantees) and that
queued jobs carry their request payload. -/
theorem processJob_sum_le (st : St) (id : Nat) (fo : Bool)
    (be : Except String Json) (ef : Bool)
    (hB : ∀ j, findJob st id = some j → j.status = "queued" →
      ∃ h ∈ st.holds, h.job_id = id ∧ h.client_id = j.client_id ∧
        h.status = "held" ∧ 8 ≤ h.aej_estimated)
    (hF : ∀ j, findJob st id = some j → j.status = "queued" ∨ j.status = "done")
    (hG : ∀ j, findJob st id = some j → j.status = "queued" →
      j.request_json.isSome)
    (c : String) :
    aejConsumed (processJob st id fo be ⟨ef, false, false⟩).st c
      + heldTotal (processJob st id fo be ⟨ef, false, false⟩).st c
    ≤ aejConsumed st c + heldTotal st c := by
  unfold processJob
  cases hfind : findJob st id with
  | none => simp
  | some j =>
    rcases hF j hfind with hq | hd
    · -- queued job: full pipeline
      have hreq := hG j hfind hq
      cases hrq : j.request_json with
      | none => rw [hrq] at hreq; simp at hreq
      | some rq =>
        have hnd : ¬(j.status = "done") := by rw [hq]; decide
        have hnc : ¬(j.status = "canceled") := by rw [hq]; decide
        simp only [hrq, if_neg hnd, if_neg hnc]
        rcases hB j hfind hq with ⟨h0, hm, hid, hcid, hst, hk⟩
        have hff : (false = true) = False := by decide
        simp only [hff, if_false]
        simp only [aejConsumed_eq, heldTotal_eq, aej_logs_logAEJ, aej_logs_setJobP,
          aej_logs_logJobEventW, aej_logs_logDecisionIns, aej_logs_releaseHoldSt,
          aej_logs_runGeneration, aej_logs_applyFallback,
          holds_setJobP, holds_logJobEventW, holds_logAEJ, holds_logDecisionIns,
          holds_runGeneration, holds_applyFallback, holds_releaseHoldSt]
        exact settleAccounting st.aej_logs st.holds j.client_id c id
          _ _ _ _ _ _ _ _ (by split <;> omega) ⟨h0, hm, hid, hcid, hst, hk⟩
    · simp only [hd, if_pos rfl]
      exact Nat.le_refl _

@[simp] theorem jobs_setJobP (st : St) (id : Nat) (p : Job → Job) :
    (setJobP st id p).jobs = setJobL st.jobs id p := rfl

/-- Two successive guarded updates of the same job compose, provided the
first patch does not change the job id. -/
theorem setJobL_setJobL (jobs : List Job) (id : Nat) (p1 p2 : Job → Job)
    (hid : ∀ y, (p1 y).id = y.id) :
    setJobL (setJobL jobs id p1) id p2 = setJobL jobs id (fun y => p2 (p1 y)) := by
  unfold setJobL
  rw [List.map_map]
  apply List.map_congr_left
  intro y _
  by_cases hy : y.id = id
  · simp [hy, hid]
  · simp [hy]

theorem setJobL_mem {jobs : List Job} {id : Nat} {p : Job → Job} {x : Job}
    (hx : x ∈ setJobL jobs id p) :
    ∃ y ∈ jobs, x = if y.id = id then p y else y := by
  obtain ⟨y, hy, rfl⟩ := List.mem_map.mp hx
  exact ⟨y, hy, rfl⟩

theorem releaseHold_mem_of_ne {holds : List Hold} {id : Nat} {cid : String}
    {h : Hold} (hmem : h ∈ holds) (hne : h.job_id ≠ id) :
    h ∈ releaseHold holds id cid := by
  unfold releaseHold
  have : (if h.job_id = id ∧ h.client_id = cid ∧ h.status = "held"
      then { h with status := "released" } else h) = h := by
    rw [if_neg (fun hc => hne hc.1)]
  exact this ▸ List.mem_map_of_mem _ hmem

theorem releaseHold_job_id {holds : List Hold} {id : Nat} {cid : String}
    {h : Hold} (hmem : h ∈ releaseHold holds id cid) :
    ∃ h0 ∈ holds, h.job_id = h0.job_id := by
  unfold releaseHold at hmem
  obtain ⟨h0, hm, rfl⟩ := List.mem_map.mp hmem
  refine ⟨h0, hm, ?_⟩
  split <;> rfl

/- frame lemmas: the worker pipeline never touches settings or nextId -/

@[simp] theorem settings_setJobP (st : St) (id : Nat) (p : Job → Job) :
    (setJobP st id p).settings = st.settings := rfl

@[simp] theorem nextId_setJobP (st : St) (id : Nat) (p : Job → Job) :
    (setJobP st id p).nextId = st.nextId := rfl

@[simp] theorem settings_logJobEventW (f : Faults) (st : St) (e : EventRecord) :
    (logJobEventW f st e).settings = st.settings := by
  unfold logJobEventW; split <;> rfl

@[simp] theorem nextId_logJobEventW (f : Faults) (st : St) (e : EventRecord) :
    (logJobEventW f st e).nextId = st.nextId := by
  unfold logJobEventW; split <;> rfl

@[simp] theorem settings_logJobEventApi (st : St) (e : EventRecord) :
    (logJobEventApi st e).settings = st.settings := rfl

@[simp] theorem nextId_logJobEventApi (st : St) (e : EventRecord) :
    (logJobEventApi st e).nextId = st.nextId := rfl

@[simp] theorem settings_logAEJ (st : St) (cid : String) (id : Nat)
    (stg : String) (a : Nat) : (logAEJ st cid id stg a).settings = st.settings := rfl

@[simp] theorem nextId_logAEJ (st : St) (cid : String) (id : Nat)
    (stg : String) (a : Nat) : (logAEJ st cid id stg a).nextId = st.nextId := rfl

@[simp] theorem settings_logDecisionIns (st : St) (cid : String) (id : Nat)
    (rq : Json) (t r : String) :
    (logDecisionIns st cid id rq t r).settings = st.settings := by
  unfold logDecisionIns; split <;> rfl

@[simp] theorem nextId_logDecisionIns (st : St) (cid : String) (id : Nat)
    (rq : Json) (t r : String) :
    (logDecisionIns st cid id rq t r).nextId = st.nextId := by
  unfold logDecisionIns; split <;> rfl

@[simp] theorem settings_releaseHoldSt (st : St) (id : Nat) (cid : String) :
    (releaseHoldSt st id cid).settings = st.settings := rfl

@[simp] theorem nextId_releaseHoldSt (st : St) (id : Nat) (cid : String) :
    (releaseHoldSt st id cid).nextId = st.nextId := rfl

@[simp] theorem settings_runGeneration (f : Faults) (st : St) (cid : String)
    (id : Nat) (m : String) (fo : Bool) (be : Except String Json) :
    (runGeneration f st cid id m fo be).1.settings = st.settings := by
  unfold runGeneration
  split
  · rfl
  split
  · split <;> simp
  · rfl

@[simp] theorem nextId_runGeneration (f : Faults) (st : St) (cid : String)
    (id : Nat) (m : String) (fo : Bool) (be : Except String Json) :
    (runGeneration f st cid id m fo be).1.nextId = st.nextId := by
  unfold runGeneration
  split
  · rfl
  split
  · split <;> simp
  · rfl

@[simp] theorem settings_applyFallback (f : Faults) (st : St) (cid : String)
    (id : Nat) (m : String) (e : Option Json) (l : Option String) :
    (applyFallback f st cid id m e l).1.settings = st.settings := by
  unfold applyFallback
  cases e with
  | none => simp
  | some v =>
    simp only []
    split <;> simp

@[simp] theorem nextId_applyFallback (f : Faults) (st : St) (cid : String)
    (id : Nat) (m : String) (e : Option Json) (l : Option String) :
    (applyFallback f st cid id m e l).1.nextId = st.nextId := by
  unfold applyFallback
  cases e with
  | none => simp
  | some v =>
    simp only []
    split <;> simp

/-- `quotaOf` depends only on the settings table. -/
@[simp] theorem quotaOf_def (st : St) (c : String) :
    quotaOf st c = quotaOfS st.settings c := rfl

theorem quotaOf_congr {st1 st2 : St} (h : st1.settings = st2.settings)
    (c : String) : quotaOf st1 c = quotaOf st2 c := by
  unfold quotaOf; rw [h]

/-- Shape of one no-decision-fault delivery: either the store is
unchanged, or the delivered job was queued and the run patched exactly
the rows of that job id to `done` (keeping id and request payload),
released that job's hold, and touched neither settings nor the id
counter. -/
theorem processJob_outcome (st : St) (id : Nat) (fo : Bool)
    (be : Except String Json) (ef : Bool)
    (hF : ∀ j, findJob st id = some j → j.status = "queued" ∨ j.status = "done")
    (hG : ∀ j, findJob st id = some j → j.status = "queued" →
      j.request_json.isSome) :
    (processJob st id fo be ⟨ef, false, false⟩).st = st
    ∨ ∃ j φ, findJob st id = some j ∧ j.status = "queued"
        ∧ (processJob st id fo be ⟨ef, false, false⟩).st.jobs = setJobL st.jobs id φ
        ∧ (∀ y : Job, (φ y).id = y.id ∧ (φ y).status = "done"
            ∧ (φ y).request_json = y.request_json)
        ∧ (processJob st id fo be ⟨ef, false, false⟩).st.holds
            = releaseHold st.holds id j.client_id
        ∧ (processJob st id fo be ⟨ef, false, false⟩).st.settings = st.settings
        ∧ (processJob st id fo be ⟨ef, false, false⟩).st.nextId = st.nextId := by
  unfold processJob
  cases hfind : findJob st id with
  | none => left; rfl
  | some j =>
    rcases hF j hfind with hq | hd
    · have hreq := hG j hfind hq
      cases hrq : j.request_json with
      | none => rw [hrq] at hreq; simp at hreq
      | some rq =>
        have hnd : ¬(j.status = "done") := by rw [hq]; decide
        have hnc : ¬(j.status = "canceled") := by rw [hq]; decide
        have hff : (false = true) = False := by decide
        right
        exact ⟨j, _, rfl, hq,
          (by
            simp only [hrq, if_neg hnd, if_neg hnc, hff, if_false]
            simp only [jobs_setJobP, jobs_logJobEventW, jobs_logAEJ,
              jobs_logDecisionIns, jobs_runGeneration, jobs_applyFallback,
              jobs_releaseHoldSt]
            rw [setJobL_setJobL, setJobL_setJobL, setJobL_setJobL] <;>
              first
              | rfl
              | exact fun y => rfl),
          (by intro y; exact ⟨rfl, rfl, rfl⟩),
          (by
            simp only [hrq, if_neg hnd, if_neg hnc, hff, if_false]
            simp only [holds_setJobP, holds_logJobEventW, holds_logAEJ,
              holds_logDecisionIns, holds_runGeneration, holds_applyFallback,
              holds_releaseHoldSt]),
          (by
            simp only [hrq, if_neg hnd, if_neg hnc, hff, if_false]
            simp only [settings_setJobP, settings_logJobEventW, settings_logAEJ,
              settings_logDecisionIns, settings_runGeneration,
              settings_applyFallback, settings_releaseHoldSt]),
          (by
            simp only [hrq, if_neg hnd, if_neg hnc, hff, if_false]
            simp only [nextId_setJobP, nextId_logJobEventW, nextId_logAEJ,
              nextId_logDecisionIns, nextId_runGeneration, nextId_applyFallback,
              nextId_releaseHoldSt])⟩
    · left
      simp only [hd, if_pos rfl]
      rfl

/- ----------------------- validation facts ----------------------- -/

/-- A payload accepted by `validateCreatePayload` has an allowed mode and
between 1 and 50 items. -/
theorem validateCreatePayload_ok {body : Json} {mode : String}
    {items : List Json} (h : validateCreatePayload body = .ok (mode, items)) :
    mode ∈ ALLOWED_MODES ∧ 1 ≤ items.length ∧ items.length ≤ 50 := by
  unfold validateCreatePayload at h
  cases body with
  | obj kvs =>
    simp only [] at h
    repeat split at h
    all_goals try (exfalso; simp at h; done)
    rename_i hmAllowed herr
    simp only [Except.ok.injEq, Prod.mk.injEq] at h
    obtain ⟨hm, hi⟩ := h
    cases hio : itemsField (Json.obj kvs) with
    | none =>
      rw [hio] at herr
      simp at herr
    | some xs =>
      rw [hio] at herr hi
      simp only [Option.getD_some] at hi
      subst hi
      subst hm
      refine ⟨hmAllowed, ?_, ?_⟩
      · by_contra hlen
        simp [show xs.length < 1 from by omega] at herr
      · by_contra hlen
        simp [show xs.length > 50 from by omega] at herr
  | null => simp at h
  | bool b => simp at h
  | num n => simp at h
  | str s => simp at h
  | arr xs => simp at h

/-- For an accepted payload the reservation is exactly
`per_mode_unit_cost * item_count`, and is at least 8. -/
theorem aejEstimate_of_ok {body : Json} {mode : String} {items : List Json}
    (h : validateCreatePayload body = .ok (mode, items)) :
    aejEstimate mode items.length = perItemCost mode * items.length
      ∧ 8 ≤ aejEstimate mode items.length := by
  obtain ⟨hm, h1, _⟩ := validateCreatePayload_ok h
  have hper : perItemCost mode = 8 ∨ perItemCost mode = 12 := by
    simp only [ALLOWED_MODES, List.mem_cons, List.mem_singleton,
      List.not_mem_nil, or_false] at hm
    rcases hm with rfl | rfl | rfl
    · left; rfl
    · right; rfl
    · right; rfl
  unfold aejEstimate
  rcases hper with hp | hp <;> rw [hp] <;> constructor <;> omega

@[simp] theorem jobs_insertIdemRecord (st : St) (cid : String)
    (k : Option String) (id : Nat) :
    (insertIdemRecord st cid k id).jobs = st.jobs := by
  unfold insertIdemRecord; cases k <;> rfl

@[simp] theorem holds_insertIdemRecord (st : St) (cid : String)
    (k : Option String) (id : Nat) :
    (insertIdemRecord st cid k id).holds = st.holds := by
  unfold insertIdemRecord; cases k <;> rfl

@[simp] theorem aej_logs_insertIdemRecord (st : St) (cid : String)
    (k : Option String) (id : Nat) :
    (insertIdemRecord st cid k id).aej_logs = st.aej_logs := by
  unfold insertIdemRecord; cases k <;> rfl

@[simp] theorem settings_insertIdemRecord (st : St) (cid : String)
    (k : Option String) (id : Nat) :
    (insertIdemRecord st cid k id).settings = st.settings := by
  unfold insertIdemRecord; cases k <;> rfl

@[simp] theorem nextId_insertIdemRecord (st : St) (cid : String)
    (k : Option String) (id : Nat) :
    (insertIdemRecord st cid k id).nextId = st.nextId := by
  unfold insertIdemRecord; cases k <;> rfl

@[simp] theorem aej_logs_logJobEventApi (st : St) (e : EventRecord) :
    (logJobEventApi st e).aej_logs = st.aej_logs := rfl

@[simp] theorem holds_logJobEventApi2 (st : St) (e : EventRecord) :
    (logJobEventApi st e).holds = st.holds := rfl

/- ----------------------- the admission/settlement invariant ----------------------- -/

/-- Invariant of sequential admission/settlement executions: every
tenant's ledger consumption plus open holds fits its quota; every queued
job is covered by a held hold of at least 8 units and carries its
request payload; statuses are `queued`/`done`; ids are fresh. -/
structure CoreInv (st : St) : Prop where
  quota : ∀ c, aejConsumed st c + heldTotal st c ≤ quotaOf st c
  queuedHold : ∀ j ∈ st.jobs, j.status = "queued" →
    ∃ h ∈ st.holds, h.job_id = j.id ∧ h.client_id = j.client_id ∧
      h.status = "held" ∧ 8 ≤ h.aej_estimated
  statusOk : ∀ j ∈ st.jobs, j.status = "queued" ∨ j.status = "done"
  reqOk : ∀ j ∈ st.jobs, j.status = "queued" → j.request_json.isSome
  jobFresh : ∀ j ∈ st.jobs, j.id < st.nextId
  holdFresh : ∀ h ∈ st.holds, h.job_id < st.nextId

/-- A no-decision-fault settlement preserves the invariant. -/
theorem Inv_processJob (st : St) (id : Nat) (fo : Bool)
    (be : Except String Json) (ef : Bool) (hInv : CoreInv st) :
    CoreInv (processJob st id fo be ⟨ef, false, false⟩).st := by
  have hF : ∀ j, findJob st id = some j → j.status = "queued" ∨ j.status = "done" :=
    fun j hj => hInv.statusOk j (List.mem_of_find?_eq_some hj)
  have hG : ∀ j, findJob st id = some j → j.status = "queued" →
      j.request_json.isSome :=
    fun j hj => hInv.reqOk j (List.mem_of_find?_eq_some hj)
  have hB : ∀ j, findJob st id = some j → j.status = "queued" →
      ∃ h ∈ st.holds, h.job_id = id ∧ h.client_id = j.client_id ∧
        h.status = "held" ∧ 8 ≤ h.aej_estimated := by
    intro j hj hq
    obtain ⟨h, hm, h1, h2, h3, h4⟩ :=
      hInv.queuedHold j (List.mem_of_find?_eq_some hj) hq
    have hid : j.id = id := by simpa using List.find?_some hj
    exact ⟨h, hm, h1.trans hid, h2, h3, h4⟩
  rcases processJob_outcome st id fo be ef hF hG with heq |
    ⟨j, φ, hfind, hq, hjobs, hprops, hholds, hsett, hnext⟩
  · rw [heq]; exact hInv
  · constructor
    · intro c
      have hs := processJob_sum_le st id fo be ef hB hF hG c
      have hqe : quotaOf (processJob st id fo be ⟨ef, false, false⟩).st c
          = quotaOf st c := quotaOf_congr hsett c
      have hi := hInv.quota c
      omega
    · intro x hx hxq
      rw [hjobs] at hx
      obtain ⟨y, hy, hxy⟩ := setJobL_mem hx
      by_cases hyid : y.id = id
      · rw [if_pos hyid] at hxy
        subst hxy
        exact absurd ((hprops y).2.1.symm.trans hxq) (by decide)
      · rw [if_neg hyid] at hxy
        subst hxy
        obtain ⟨h, hm, h1, h2, h3, h4⟩ := hInv.queuedHold x hy hxq
        refine ⟨h, ?_, h1, h2, h3, h4⟩
        rw [hholds]
        exact releaseHold_mem_of_ne hm (by rw [h1]; exact hyid)
    · intro x hx
      rw [hjobs] at hx
      obtain ⟨y, hy, hxy⟩ := setJobL_mem hx
      by_cases hyid : y.id = id
      · rw [if_pos hyid] at hxy; subst hxy; right; exact (hprops y).2.1
      · rw [if_neg hyid] at hxy; subst hxy; exact hInv.statusOk x hy
    · intro x hx hxq
      rw [hjobs] at hx
      obtain ⟨y, hy, hxy⟩ := setJobL_mem hx
      by_cases hyid : y.id = id
      · rw [if_pos hyid] at hxy; subst hxy
        exact absurd ((hprops y).2.1.symm.trans hxq) (by decide)
      · rw [if_neg hyid] at hxy; subst hxy; exact hInv.reqOk x hy hxq
    · intro x hx
      rw [hjobs] at hx
      obtain ⟨y, hy, hxy⟩ := setJobL_mem hx
      rw [hnext]
      by_cases hyid : y.id = id
      · rw [if_pos hyid] at hxy; subst hxy
        rw [(hprops y).1]; exact hInv.jobFresh y hy
      · rw [if_neg hyid] at hxy; subst hxy; exact hInv.jobFresh x hy
    · intro h hm
      rw [hholds] at hm
      obtain ⟨h0, h0m, hsame⟩ := releaseHold_job_id hm
      rw [hnext, hsame]
      exact hInv.holdFresh h0 h0m

/-- An admission call preserves the invariant: it either leaves the
store unchanged, only logs an event, or creates a quota-checked job with
its matching held hold. -/
theorem Inv_createJob (st : St) (cid : String) (body : Json)
    (k : Option String) (hInv : CoreInv st) :
    CoreInv (createJob st cid body k).2 := by
  unfold createJob
  cases hval : validateCreatePayload body with
  | error es => exact hInv
  | ok v =>
    obtain ⟨mode, items⟩ := v
    simp only []
    split
    · exact ⟨hInv.quota, hInv.queuedHold, hInv.statusOk, hInv.reqOk,
        hInv.jobFresh, hInv.holdFresh⟩
    · split
      · exact hInv
      · rename_i hquota
        obtain ⟨hest, h8⟩ := aejEstimate_of_ok hval
        constructor
        · intro c
          have hi := hInv.quota c
          rw [aejConsumed_eq, heldTotal_eq, quotaOf_def] at hi
          simp only [aejConsumed_eq, heldTotal_eq, quotaOf_def,
            aej_logs_logJobEventApi, aej_logs_insertIdemRecord,
            holds_logJobEventApi2, holds_insertIdemRecord,
            settings_logJobEventApi, settings_insertIdemRecord,
            List.map_append, List.sum_append, List.map_cons, List.map_nil,
            List.sum_cons, List.sum_nil, holdContrib]
          rw [aejConsumed_eq, heldTotal_eq, quotaOf_def] at hquota
          by_cases hc : c = cid
          · subst hc
            rw [if_pos (by simp)]
            omega
          · rw [if_neg (by rintro ⟨h1, -⟩; exact hc h1.symm)]
            omega
        · intro x hx hxq
          simp only [jobs_logJobEventApi, jobs_insertIdemRecord,
            holds_logJobEventApi2, holds_insertIdemRecord] at hx ⊢
          rcases List.mem_append.mp hx with hold_x | hnew
          · obtain ⟨h, hm, h1, h2, h3, h4⟩ := hInv.queuedHold x hold_x hxq
            exact ⟨h, List.mem_append_left _ hm, h1, h2, h3, h4⟩
          · rw [List.mem_singleton] at hnew
            subst hnew
            refine ⟨_, List.mem_append_right _ (List.mem_singleton.mpr rfl),
              rfl, rfl, rfl, h8⟩
        · intro x hx
          simp only [jobs_logJobEventApi, jobs_insertIdemRecord] at hx
          rcases List.mem_append.mp hx with hold_x | hnew
          · exact hInv.statusOk x hold_x
          · rw [List.mem_singleton] at hnew
            subst hnew
            left; rfl
        · intro x hx _
          simp only [jobs_logJobEventApi, jobs_insertIdemRecord] at hx
          rcases List.mem_append.mp hx with hold_x | hnew
          · exact hInv.reqOk x hold_x (by assumption)
          · rw [List.mem_singleton] at hnew
            subst hnew
            rfl
        · intro x hx
          simp only [jobs_logJobEventApi, jobs_insertIdemRecord,
            nextId_logJobEventApi, nextId_insertIdemRecord] at hx ⊢
          rcases List.mem_append.mp hx with hold_x | hnew
          · exact Nat.lt_succ_of_lt (hInv.jobFresh x hold_x)
          · rw [List.mem_singleton] at hnew
            subst hnew
            exact Nat.lt_succ_self _
        · intro h hm
          simp only [holds_logJobEventApi2, holds_insertIdemRecord,
            nextId_logJobEventApi, nextId_insertIdemRecord] at hm ⊢
          rcases List.mem_append.mp hm with hold_h | hnew
          · exact Nat.lt_succ_of_lt (hInv.holdFresh h hold_h)
          · rw [List.mem_singleton] at hnew
            subst hnew
            exact Nat.lt_succ_self _

/-- The empty store satisfies the invariant. -/
theorem CoreInv_init (settings : List SiteSetting) (clients : List Client) :
    CoreInv (initState settings clients) := by
  constructor
  · intro c; simp [initState, aejConsumed_eq, heldTotal_eq]
  · intro j hj; simp [initState] at hj
  · intro j hj; simp [initState] at hj
  · intro j hj; simp [initState] at hj
  · intro j hj; simp [initState] at hj
  · intro h hm; simp [initState] at hm

/-- Every state along a sequential execution satisfies the invariant. -/
theorem CoreInv_foldl (steps : List Step) (st : St) (hInv : CoreInv st) :
    CoreInv (steps.foldl applyStep st) := by
  induction steps generalizing st with
  | nil => exact hInv
  | cons s rest ih =>
    refine ih _ ?_
    cases s with
    | adm clientId body idemKey => exact Inv_createJob st clientId body idemKey hInv
    | settle jobId forced backend eventFail =>
      exact Inv_processJob st jobId forced backend eventFail hInv

/- ----------------------- admission characterizations ----------------------- -/

/-- Admission with a token that already has an idempotency record:
returns the recorded job id with a hard-coded `"queued"` status and
changes nothing but the event log. -/
theorem createJob_idemHit (st : St) (cid : String) (body : Json)
    (mode : String) (items : List Json) (kk : String) (jid : Nat)
    (hval : validateCreatePayload body = .ok (mode, items))
    (hlook : lookupIdem st cid kk = some jid) :
    createJob st cid body (some kk)
      = (.idemHit jid "queued" true,
         logJobEventApi st
           { job_id := toString jid, client_id := cid,
             event_type := "idempotent_hit",
             message := some "Idempotency hit: returning existing job",
             meta := none }) := by
  unfold createJob
  rw [hval]
  simp only [Option.bind, hlook]

/-- Admission with no applicable idempotency record whose estimate does
not fit the remaining quota: `quota_exceeded` response carrying the
snapshot, with the store left untouched. -/
theorem createJob_quotaExceeded (st : St) (cid : String) (body : Json)
    (mode : String) (items : List Json) (k : Option String)
    (hval : validateCreatePayload body = .ok (mode, items))
    (hk : k.bind (fun kk => lookupIdem st cid kk) = none)
    (hover : quotaOf st cid <
      aejConsumed st cid + heldTotal st cid + aejEstimate mode items.length) :
    createJob st cid body k
      = (.quotaExceeded (planOf st cid) (quotaOf st cid) (aejConsumed st cid)
          (heldTotal st cid) (aejEstimate mode items.length)
          (quotaOf st cid - aejConsumed st cid - heldTotal st cid), st) := by
  unfold createJob
  rw [hval]
  simp only [hk]
  rw [if_pos hover]

/-- Admission with no applicable idempotency record whose estimate fits:
job + hold (+ idempotency record) are created on a fresh id and the job
is enqueued. -/
theorem createJob_created (st : St) (cid : String) (body : Json)
    (mode : String) (items : List Json) (k : Option String)
    (hval : validateCreatePayload body = .ok (mode, items))
    (hk : k.bind (fun kk => lookupIdem st cid kk) = none)
    (hfits : aejConsumed st cid + heldTotal st cid + aejEstimate mode items.length
      ≤ quotaOf st cid) :
    (createJob st cid body k).1
        = .created st.nextId "queued" (aejEstimate mode items.length)
      ∧ (createJob st cid body k).2.jobs = st.jobs ++
          [{ id := st.nextId, client_id := cid, mode := mode, status := "queued",
             progress := 0, request_json := some body, idempotency_key := k,
             aej_estimated := aejEstimate mode items.length, aej_final := none,
             error_text := none, result_json := none, finished_at := none }]
      ∧ (createJob st cid body k).2.holds = st.holds ++
          [{ job_id := st.nextId, client_id := cid,
             aej_estimated := aejEstimate mode items.length, status := "held" }]
      ∧ (createJob st cid body k).2.idem
          = (insertIdemRecord st cid k st.nextId).idem
      ∧ st.nextId ∈ (createJob st cid body k).2.queue := by
  unfold createJob
  rw [hval]
  simp only [hk]
  rw [if_neg (by omega)]
  refine ⟨rfl, ?_, ?_, ?_, ?_⟩
  · cases k <;> rfl
  · cases k <;> rfl
  · cases k <;> rfl
  · cases k <;>
      exact List.mem_append_right _ (List.mem_singleton.mpr rfl)

/- ----------------------- findJob lemmas ----------------------- -/

@[simp] theorem findJob_logAEJ (st : St) (cid : String) (id : Nat)
    (stg : String) (a : Nat) (i : Nat) :
    findJob (logAEJ st cid id stg a) i = findJob st i := rfl

@[simp] theorem findJob_logJobEventW (f : Faults) (st : St) (e : EventRecord)
    (i : Nat) : findJob (logJobEventW f st e) i = findJob st i := by
  unfold logJobEventW; split <;> rfl

@[simp] theorem findJob_logJobEventApi (st : St) (e : EventRecord) (i : Nat) :
    findJob (logJobEventApi st e) i = findJob st i := rfl

@[simp] theorem findJob_logDecisionIns (st : St) (cid : String) (id : Nat)
    (rq : Json) (t r : String) (i : Nat) :
    findJob (logDecisionIns st cid id rq t r) i = findJob st i := by
  unfold logDecisionIns; split <;> rfl

@[simp] theorem findJob_releaseHoldSt (st : St) (id : Nat) (cid : String)
    (i : Nat) : findJob (releaseHoldSt st id cid) i = findJob st i := rfl

@[simp] theorem findJob_runGeneration (f : Faults) (st : St) (cid : String)
    (id : Nat) (m : String) (fo : Bool) (be : Except String Json) (i : Nat) :
    findJob (runGeneration f st cid id m fo be).1 i = findJob st i := by
  unfold findJob; rw [jobs_runGeneration]

@[simp] theorem findJob_applyFallback (f : Faults) (st : St) (cid : String)
    (id : Nat) (m : String) (e : Option Json) (l : Option String) (i : Nat) :
    findJob (applyFallback f st cid id m e l).1 i = findJob st i := by
  unfold findJob; rw [jobs_applyFallback]

/-- Looking up the updated id in the table after a guarded update
returns the patched row, for patches that keep the id. -/
theorem find?_setJobL_self (jobs : List Job) (id : Nat) (p : Job → Job)
    (hid : ∀ y, (p y).id = y.id) :
    (setJobL jobs id p).find? (fun j => j.id = id)
      = (jobs.find? (fun j => j.id = id)).map p := by
  induction jobs with
  | nil => rfl
  | cons hd tl ih =>
    simp only [setJobL, List.map_cons, List.find?_cons]
    by_cases hhd : hd.id = id
    · have h1 : (p hd).id = id := by rw [hid, hhd]
      rw [if_pos hhd]
      simp [h1, hhd]
    · rw [if_neg hhd]
      simp only [setJobL] at ih
      simp [hhd, ih]

theorem findJob_setJobP_self (st : St) (id : Nat) (p : Job → Job)
    (hid : ∀ y, (p y).id = y.id) :
    findJob (setJobP st id p) id = (findJob st id).map p := by
  unfold findJob
  rw [jobs_setJobP]
  exact find?_setJobL_self st.jobs id p hid

/-- Looking up a different id is unaffected by a guarded update. -/
theorem find?_setJobL_other (jobs : List Job) (id : Nat) (p : Job → Job)
    (hid : ∀ y, (p y).id = y.id) (i : Nat) (hne : i ≠ id) :
    (setJobL jobs id p).find? (fun j => j.id = i)
      = jobs.find? (fun j => j.id = i) := by
  induction jobs with
  | nil => rfl
  | cons hd tl ih =>
    simp only [setJobL, List.map_cons, List.find?_cons]
    by_cases hhd : hd.id = id
    · have h1 : ¬((p hd).id = i) := by
        rw [hid, hhd]; exact fun h => hne h.symm
      have h2 : ¬(hd.id = i) := by
        rw [hhd]; exact fun h => hne h.symm
      rw [if_pos hhd]
      simp only [setJobL] at ih
      simp [h1, h2, ih]
    · rw [if_neg hhd]
      simp only [setJobL] at ih
      by_cases h2 : hd.id = i
      · simp [h2]
      · simp [h2, ih]

theorem findJob_setJobP_other (st : St) (id : Nat) (p : Job → Job)
    (hid : ∀ y, (p y).id = y.id) (i : Nat) (hne : i ≠ id) :
    findJob (setJobP st id p) i = findJob st i := by
  unfold findJob
  rw [jobs_setJobP]
  exact find?_setJobL_other st.jobs id p hid i hne

/-- `find?` over an append. -/
theorem find?_append {α : Type _} (l1 l2 : List α) (p : α → Bool) :
    (l1 ++ l2).find? p = ((l1.find? p).or (l2.find? p)) := by
  induction l1 with
  | nil => rfl
  | cons hd tl ih =>
    simp only [List.cons_append, List.find?_cons]
    cases hp : p hd
    · simp only [Option.or]
      exact ih
    · rfl

/-- Requests with more than 50 items fail validation. -/
theorem validate_rejects_over50 (mode : String) (items : List Json)
    (h : 50 < items.length) :
    ∃ es, validateCreatePayload (mkCreateBody mode items) = .error es := by
  unfold validateCreatePayload mkCreateBody
  simp only []
  refine ⟨_, if_neg ?_⟩
  intro he
  have hio : itemsField (Json.obj [("mode", Json.str mode),
      ("items", Json.arr items)]) = some items := rfl
  rw [hio] at he
  simp [show 50 < items.length from h] at he

/-- Requests whose (trimmed) mode is not an allowed mode fail
validation. -/
theorem validate_rejects_unknown_mode (mode : String) (items : List Json)
    (h : jsTrim mode ∉ ALLOWED_MODES) :
    ∃ es, validateCreatePayload (mkCreateBody mode items) = .error es := by
  unfold validateCreatePayload mkCreateBody
  simp only []
  refine ⟨_, if_neg ?_⟩
  intro he
  have hmv : jsStrField (jsLookup (Json.obj [("mode", Json.str mode),
      ("items", Json.arr items)]) "mode") ∉ ALLOWED_MODES := by
    by_cases h0 : mode = ""
    · subst h0
      intro hmem
      simp [jsStrField, jsLookup, jsTruthy, jsFalsy, ALLOWED_MODES] at hmem
    · have : jsStrField (jsLookup (Json.obj [("mode", Json.str mode),
          ("items", Json.arr items)]) "mode") = jsTrim mode := by
        simp [jsStrField, jsLookup, jsTruthy, jsFalsy, h0]
        rfl
      rw [this]
      exact h
  rw [if_neg hmv] at he
  simp at he

/- ----------------------- claim theorems ----------------------- -/

/-- C1: For every tenant, at every point of any sequential execution of
admissions and worker settlements (each operation run to completion,
decision-log inserts succeeding, event-log writes allowed to fail), the
tenant's ledger consumption plus the sum of its open holds is at most
its monthly quota; in particular this holds immediately after every
committed admission, because admission commits only when
`consumed + held + estimated_cost ≤ monthly_quota`. -/
theorem c1_quota_invariant (settings : List SiteSetting)
    (clients : List Client) (steps : List Step) (c : String) :
    aejConsumed (execSteps settings clients steps) c
      + heldTotal (execSteps settings clients steps) c
    ≤ quotaOf (execSteps settings clients steps) c :=
  (CoreInv_foldl steps _ (CoreInv_init settings clients)).quota c

/-- C2: the estimate of an admitted request is the per-mode unit cost
(`quick_boost` 8, `full_content` 12, `ecom_catalog` 12) times the item
count; more than 50 items or an unknown mode is rejected before costing
(no state change); and on the concrete scenario — quota 20, no ledger
use, one open hold of 8 — a second 2-item `quick_boost` request
(estimate 16) is rejected with `quota_exceeded` and remaining 12. -/
theorem c2_estimate_and_bounds (st : St) (cid : String) (body : Json)
    (mode : String) (items : List Json) (k : Option String) :
    (perItemCost "quick_boost" = 8 ∧ perItemCost "full_content" = 12
      ∧ perItemCost "ecom_catalog" = 12)
    ∧ (validateCreatePayload body = .ok (mode, items) →
        aejEstimate mode items.length = perItemCost mode * items.length
        ∧ 1 ≤ items.length ∧ items.length ≤ 50 ∧ mode ∈ ALLOWED_MODES)
    ∧ (50 < items.length →
        ∃ es, createJob st cid (mkCreateBody mode items) k = (.schemaInvalid es, st))
    ∧ (jsTrim mode ∉ ALLOWED_MODES →
        ∃ es, createJob st cid (mkCreateBody mode items) k = (.schemaInvalid es, st))
    ∧ createJob demoHeldState "t1" (mkCreateBody "quick_boost" [demoItem, demoItem])
        none = (.quotaExceeded "starter" 20 0 8 16 12, demoHeldState) := by
  refine ⟨⟨rfl, rfl, rfl⟩, ?_, ?_, ?_, ?_⟩
  · intro hval
    obtain ⟨hm, h1, h50⟩ := validateCreatePayload_ok hval
    exact ⟨(aejEstimate_of_ok hval).1, h1, h50, hm⟩
  · intro h
    obtain ⟨es, hes⟩ := validate_rejects_over50 mode items h
    refine ⟨es, ?_⟩
    unfold createJob
    rw [hes]
  · intro h
    obtain ⟨es, hes⟩ := validate_rejects_unknown_mode mode items h
    refine ⟨es, ?_⟩
    unfold createJob
    rw [hes]
  · rfl

/-- C3: an admission whose estimate does not fit the remaining quota
fails with `quota_exceeded` reporting consumed / held / needed /
remaining, and leaves the store completely unchanged (no job, no hold,
no idempotency record, no event). -/
theorem c3_quota_exceeded_no_side_effects (st : St) (cid : String)
    (body : Json) (mode : String) (items : List Json) (k : Option String)
    (hval : validateCreatePayload body = .ok (mode, items))
    (hk : k.bind (fun kk => lookupIdem st cid kk) = none)
    (hover : quotaOf st cid <
      aejConsumed st cid + heldTotal st cid + aejEstimate mode items.length) :
    (createJob st cid body k).1
      = .quotaExceeded (planOf st cid) (quotaOf st cid) (aejConsumed st cid)
          (heldTotal st cid) (aejEstimate mode items.length)
          (quotaOf st cid - aejConsumed st cid - heldTotal st cid)
    ∧ (createJob st cid body k).2 = st := by
  have h := createJob_quotaExceeded st cid body mode items k hval hk hover
  rw [h]
  exact ⟨rfl, rfl⟩

/-- Witness for C3 on the concrete quota-20 scenario. -/
theorem c3_witness :
    (createJob demoHeldState "t1"
        (mkCreateBody "quick_boost" [demoItem, demoItem]) none).1
      = .quotaExceeded "starter" 20 0 8 16 12
    ∧ (createJob demoHeldState "t1"
        (mkCreateBody "quick_boost" [demoItem, demoItem]) none).2
      = demoHeldState := by
  have h := c3_quota_exceeded_no_side_effects demoHeldState "t1"
    (mkCreateBody "quick_boost" [demoItem, demoItem]) "quick_boost"
    [demoItem, demoItem] none rfl rfl (by decide)
  exact h

/-- After a successful admission with a token, the idempotency record
resolves the token to the created job id. -/
theorem lookupIdem_after_created (st : St) (cid : String) (body : Json)
    (mode : String) (items : List Json) (kk : String)
    (hval : validateCreatePayload body = .ok (mode, items))
    (hk : lookupIdem st cid kk = none)
    (hfits : aejConsumed st cid + heldTotal st cid + aejEstimate mode items.length
      ≤ quotaOf st cid) :
    lookupIdem (createJob st cid body (some kk)).2 cid kk = some st.nextId := by
  have h := (createJob_created st cid body mode items (some kk) hval
    (by simpa [Option.bind] using hk) hfits).2.2.2.1
  unfold lookupIdem
  rw [h]
  unfold insertIdemRecord
  simp only []
  rw [find?_append]
  have hfind : st.idem.find?
      (fun r => r.client_id = cid ∧ r.idem_key = kk) = none := by
    unfold lookupIdem at hk
    exact Option.map_eq_none'.mp hk
  rw [hfind]
  simp

/-- C4: a second admission by the same tenant with the same idempotency
token never creates a job or a hold: it returns exactly the existing
job id (whatever the job's current status), and — composed with a first
successful admission — the replay returns the first call's job id with
jobs, holds and idempotency records untouched. -/
theorem c4_idempotent_token_replay (st : St) (cid : String)
    (body1 body2 : Json) (mode1 mode2 : String) (items1 items2 : List Json)
    (kk : String)
    (hval2 : validateCreatePayload body2 = .ok (mode2, items2)) :
    (∀ (st0 : St) (jid : Nat), lookupIdem st0 cid kk = some jid →
        (createJob st0 cid body2 (some kk)).1 = .idemHit jid "queued" true
        ∧ (createJob st0 cid body2 (some kk)).2.jobs = st0.jobs
        ∧ (createJob st0 cid body2 (some kk)).2.holds = st0.holds
        ∧ (createJob st0 cid body2 (some kk)).2.idem = st0.idem)
    ∧ (validateCreatePayload body1 = .ok (mode1, items1) →
       lookupIdem st cid kk = none →
       aejConsumed st cid + heldTotal st cid + aejEstimate mode1 items1.length
         ≤ quotaOf st cid →
       (createJob st cid body1 (some kk)).1
         = .created st.nextId "queued" (aejEstimate mode1 items1.length)
       ∧ (createJob (createJob st cid body1 (some kk)).2 cid body2 (some kk)).1
         = .idemHit st.nextId "queued" true
       ∧ (createJob (createJob st cid body1 (some kk)).2 cid body2 (some kk)).2.jobs
         = (createJob st cid body1 (some kk)).2.jobs
       ∧ (createJob (createJob st cid body1 (some kk)).2 cid body2 (some kk)).2.holds
         = (createJob st cid body1 (some kk)).2.holds) := by
  constructor
  · intro st0 jid hlook
    rw [createJob_idemHit st0 cid body2 mode2 items2 kk jid hval2 hlook]
    exact ⟨rfl, rfl, rfl, rfl⟩
  · intro hval1 hk hfits
    have h1 := createJob_created st cid body1 mode1 items1 (some kk) hval1
      (by simpa [Option.bind] using hk) hfits
    have h2 := lookupIdem_after_created st cid body1 mode1 items1 kk hval1 hk hfits
    rw [createJob_idemHit _ cid body2 mode2 items2 kk st.nextId hval2 h2]
    exact ⟨h1.1, rfl, rfl, rfl⟩

/-- Witness for C4 at the empty store (default quota 500). -/
theorem c4_witness :
    (createJob (initState [] []) "t1" (mkCreateBody "quick_boost" [demoItem])
        (some "tok")).1 = .created 0 "queued" 8
    ∧ (createJob (createJob (initState [] []) "t1"
          (mkCreateBody "quick_boost" [demoItem]) (some "tok")).2 "t1"
          (mkCreateBody "quick_boost" [demoItem]) (some "tok")).1
        = .idemHit 0 "queued" true := by
  have h := (c4_idempotent_token_replay (initState [] []) "t1"
    (mkCreateBody "quick_boost" [demoItem]) (mkCreateBody "quick_boost" [demoItem])
    "quick_boost" "quick_boost" [demoItem] [demoItem] "tok" rfl).2 rfl rfl
    (by decide)
  exact ⟨h.1, h.2.1⟩

/-- C9: an idempotent-hit response always reports status `"queued"`
(and `idempotent: true`), regardless of the existing job's actual
status — shown in general and on a store whose recorded job is already
`done`. -/
theorem c9_idem_hit_status_hardcoded :
    (∀ (st : St) (cid : String) (body : Json) (k : Option String)
        (r : CreateResult) (st2 : St) (j : Nat) (s : String) (b : Bool),
        createJob st cid body k = (r, st2) →
        r = .idemHit j s b → s = "queued" ∧ b = true)
    ∧ (createJob c9State "t1" (mkCreateBody "quick_boost" [demoItem])
        (some "tok")).1 = .idemHit 7 "queued" true
    ∧ (findJob c9State 7).map Job.status = some "done" := by
  refine ⟨?_, rfl, rfl⟩
  intro st cid body k r st2 j s b h hr
  subst hr
  unfold createJob at h
  cases hval : validateCreatePayload body with
  | error es =>
    rw [hval] at h
    simp at h
  | ok v =>
    obtain ⟨m, its⟩ := v
    rw [hval] at h
    simp only [] at h
    cases hb : k.bind (fun kk => lookupIdem st cid kk) with
    | some jid =>
      simp only [hb, Prod.mk.injEq, CreateResult.idemHit.injEq] at h
      exact ⟨h.1.2.1.symm, h.1.2.2.symm⟩
    | none =>
      simp only [hb] at h
      split at h <;> simp at h

/-- C10: a tenant with no site-settings row is treated as plan
`"starter"` with monthly quota 500 both by the billing summary and by
admission, which therefore checks the estimate against 500 and admits a
fitting request instead of rejecting it. -/
theorem c10_missing_settings_defaults (st : St) (cid : String)
    (hset : settingsFor st cid = none) :
    quotaOf st cid = 500 ∧ planOf st cid = "starter"
    ∧ (fetchBillingSummary st cid).monthly_quota_aej = 500
    ∧ (fetchBillingSummary st cid).plan = "starter"
    ∧ ∀ (body : Json) (mode : String) (items : List Json) (k : Option String),
        validateCreatePayload body = .ok (mode, items) →
        (k.bind fun kk => lookupIdem st cid kk) = none →
        aejConsumed st cid + heldTotal st cid + aejEstimate mode items.length
          ≤ 500 →
        (createJob st cid body k).1
          = .created st.nextId "queued" (aejEstimate mode items.length) := by
  have hq : quotaOf st cid = 500 := by
    unfold quotaOf quotaOfS
    unfold settingsFor at hset
    rw [hset]
  have hp : planOf st cid = "starter" := by
    unfold planOf planOfS
    unfold settingsFor at hset
    rw [hset]
  refine ⟨hq, hp, hq, hp, ?_⟩
  intro body mode items k hval hk hfits
  exact (createJob_created st cid body mode items k hval hk
    (by rw [hq]; exact hfits)).1

/-- Witness for C10 at the empty store. -/
theorem c10_witness :
    quotaOf (initState [] []) "t1" = 500
    ∧ planOf (initState [] []) "t1" = "starter"
    ∧ (createJob (initState [] []) "t1" (mkCreateBody "quick_boost" [demoItem])
        none).1 = .created 0 "queued" 8 := by
  have h := c10_missing_settings_defaults (initState [] []) "t1" rfl
  exact ⟨h.1, h.2.1, h.2.2.2.2 (mkCreateBody "quick_boost" [demoItem])
    "quick_boost" [demoItem] none rfl rfl (by decide)⟩

/-- Witness for C2: the costing facts instantiated on a concrete
accepted 1-item request, plus the concrete quota-20 rejection. -/
theorem c2_witness :
    aejEstimate "quick_boost" [demoItem].length
      = perItemCost "quick_boost" * [demoItem].length
    ∧ [demoItem].length ≤ 50
    ∧ createJob demoHeldState "t1"
        (mkCreateBody "quick_boost" [demoItem, demoItem]) none
      = (.quotaExceeded "starter" 20 0 8 16 12, demoHeldState) := by
  have h := c2_estimate_and_bounds demoHeldState "t1"
    (mkCreateBody "quick_boost" [demoItem]) "quick_boost" [demoItem] none
  obtain ⟨he, h1, h50, hm⟩ := h.2.1 rfl
  exact ⟨he, h50, h.2.2.2.2⟩

/- ----------------------- admin endpoint lemmas ----------------------- -/

@[simp] theorem queue_logJobEventApi (st : St) (e : EventRecord) :
    (logJobEventApi st e).queue = st.queue := rfl

@[simp] theorem queue_setJobP (st : St) (id : Nat) (p : Job → Job) :
    (setJobP st id p).queue = st.queue := rfl

/-- The job row after an administrative retry: reset to `queued` /
progress 0 with `error_text` and `result_json` cleared (and nothing
else changed). -/
theorem findJob_adminRetry (st : St) (id : Nat) (j : Job)
    (hfind : findJob st id = some j) :
    findJob (adminRetryJob st id).2 id
      = some { j with status := "queued", progress := 0,
                      error_text := none, result_json := none } := by
  have hf2 : st.jobs.find? (fun x => x.id = id) = some j := hfind
  have hkey : (setJobL st.jobs id (fun x =>
      { x with status := "queued", progress := 0, error_text := none,
               result_json := none })).find? (fun x => x.id = id)
      = some { j with status := "queued", progress := 0,
                      error_text := none, result_json := none } := by
    rw [find?_setJobL_self st.jobs id (fun x =>
      { x with status := "queued", progress := 0,
               error_text := none, result_json := none }) (fun y => rfl), hf2]
    rfl
  unfold adminRetryJob
  rw [hfind]
  simp only [findJob_logJobEventApi]
  split
  · exact hkey
  · exact hkey

/-- The job row after an administrative cancel of a non-final job. -/
theorem findJob_adminCancel (st : St) (id : Nat) (j : Job)
    (hfind : findJob st id = some j)
    (hnf : ¬(j.status = "done" ∨ j.status = "error")) :
    findJob (adminCancelJob st id).2 id
      = some { j with status := "canceled",
                      error_text := some (j.error_text.getD "") } := by
  have hf2 : st.jobs.find? (fun x => x.id = id) = some j := hfind
  unfold adminCancelJob
  rw [hfind]
  simp only []
  rw [if_neg hnf]
  simp only [findJob_logJobEventApi]
  show (setJobL st.jobs id _).find? (fun x => x.id = id) = _
  rw [find?_setJobL_self st.jobs id (fun x =>
    { x with status := "canceled",
             error_text := some (x.error_text.getD "") }) (fun y => rfl), hf2]
  rfl

/-- Releasing one tenant's hold preserves "the job has no held hold". -/
theorem releaseHold_no_held_mono {holds : List Hold} {id : Nat} {cid : String}
    (h0 : ∀ h ∈ holds, ¬(h.job_id = id ∧ h.status = "held")) :
    ∀ h ∈ releaseHold holds id cid,
      ¬(h.job_id = id ∧ h.status = "held") := by
  intro h hmem
  unfold releaseHold at hmem
  obtain ⟨x, hx, rfl⟩ := List.mem_map.mp hmem
  split
  · simp
  · exact h0 x hx

/-- C8 (amended): an administrative retry of an existing job resets it
to `queued` with progress 0 and clears `error_text` and `result_json`,
but leaves `finished_at` untouched; it re-enqueues the job; and it
inserts a fresh held hold only when no hold row for the job exists at
all — any existing row (held or released: the conflict target is the
`job_id` primary key) suppresses the insert, so a job whose hold was
already released is re-run without an open hold. -/
theorem c8_admin_retry_semantics (st : St) (id : Nat) (j : Job)
    (hfind : findJob st id = some j) :
    (adminRetryJob st id).1 = .retried id "queued"
    ∧ findJob (adminRetryJob st id).2 id
        = some { j with status := "queued", progress := 0,
                        error_text := none, result_json := none }
    ∧ (findJob (adminRetryJob st id).2 id).map Job.finished_at
        = some j.finished_at
    ∧ id ∈ (adminRetryJob st id).2.queue
    ∧ (st.holds.any (fun h => h.job_id = id) = false →
        (adminRetryJob st id).2.holds
          = st.holds ++ [{ job_id := id, client_id := j.client_id,
                           aej_estimated := j.aej_estimated,
                           status := "held" }])
    ∧ (st.holds.any (fun h => h.job_id = id) = true →
        (adminRetryJob st id).2.holds = st.holds) := by
  have hfj := findJob_adminRetry st id j hfind
  refine ⟨?_, hfj, ?_, ?_, ?_, ?_⟩
  · unfold adminRetryJob
    rw [hfind]
  · rw [hfj]
    rfl
  · unfold adminRetryJob
    rw [hfind]
    simp only []
    split
    · exact List.mem_append_right _ (List.mem_singleton_self id)
    · exact List.mem_append_right _ (List.mem_singleton_self id)
  · intro hno
    have hnot : ¬(st.holds.any (fun h => h.job_id = id) = true) := by
      rw [hno]; decide
    unfold adminRetryJob
    rw [hfind]
    simp only [holds_logJobEventApi2, holds_setJobP]
    rw [if_neg hnot]
  · intro hyes
    unfold adminRetryJob
    rw [hfind]
    simp only [holds_logJobEventApi2, holds_setJobP]
    rw [if_pos hyes]
    simp only [holds_setJobP]

/-- Witness for C8 on the released-hold store: the retry succeeds,
re-enqueues, and reuses (does not re-create) the hold table rows. -/
theorem c8_witness :
    (adminRetryJob retryDemoState 1).1 = .retried 1 "queued"
    ∧ 1 ∈ (adminRetryJob retryDemoState 1).2.queue
    ∧ (adminRetryJob retryDemoState 1).2.holds = retryDemoState.holds := by
  have h := c8_admin_retry_semantics retryDemoState 1
    { id := 1, client_id := "t1", mode := "quick_boost", status := "done",
      progress := 100, request_json := none, idempotency_key := none,
      aej_estimated := 8, aej_final := some 4, error_text := none,
      result_json := none, finished_at := some 5 } rfl
  exact ⟨h.1, h.2.2.2.1, h.2.2.2.2.2 rfl⟩

/-- Counterexample for C8 as claimed: a `done` job whose only hold row
is already `released` has no open hold, yet the administrative retry
creates no fresh held hold (the released row blocks the insert), and
the job's `finished_at` is not cleared. -/
theorem c8_counterexample :
    (findJob retryDemoState 1).map Job.status = some "done"
    ∧ (∀ h ∈ retryDemoState.holds, h.status ≠ "held")
    ∧ (adminRetryJob retryDemoState 1).1 = .retried 1 "queued"
    ∧ (findJob (adminRetryJob retryDemoState 1).2 1).map Job.status
        = some "queued"
    ∧ (∀ h ∈ (adminRetryJob retryDemoState 1).2.holds, h.status ≠ "held")
    ∧ (findJob (adminRetryJob retryDemoState 1).2 1).map Job.finished_at
        = some (some 5) := by
  refine ⟨rfl, by decide, rfl, rfl, by decide, rfl⟩

/-- C7: delivering a `canceled` job never invokes the backend, changes
no job row, reports a skip, and leaves no held hold of the job's tenant
for it; delivering a `done` job is an exact no-op; and canceling a
still-`queued` job marks it `canceled`, removes it from the queue,
releases its held holds, after which delivery is exactly such a
canceled-job no-op. -/
theorem c7_cancel_before_pickup (st : St) (id : Nat) (j : Job)
    (fo : Bool) (be : Except String Json) (f : Faults)
    (hfind : findJob st id = some j) :
    (j.status = "canceled" →
        (processJob st id fo be f).openai_called = false
        ∧ (processJob st id fo be f).res = .skippedCanceled
        ∧ (processJob st id fo be f).st.jobs = st.jobs
        ∧ ∀ h ∈ (processJob st id fo be f).st.holds,
            ¬(h.job_id = id ∧ h.client_id = j.client_id ∧ h.status = "held"))
    ∧ (j.status = "done" → processJob st id fo be f = ⟨st, .skippedDone, false⟩)
    ∧ (j.status = "queued" →
        (adminCancelJob st id).1 = .canceled id
        ∧ (findJob (adminCancelJob st id).2 id).map Job.status
            = some "canceled"
        ∧ id ∉ (adminCancelJob st id).2.queue
        ∧ (∀ h ∈ (adminCancelJob st id).2.holds,
            ¬(h.job_id = id ∧ h.status = "held"))
        ∧ (processJob (adminCancelJob st id).2 id fo be f).openai_called
            = false
        ∧ (processJob (adminCancelJob st id).2 id fo be f).res
            = .skippedCanceled
        ∧ ∀ h ∈ (processJob (adminCancelJob st id).2 id fo be f).st.holds,
            ¬(h.job_id = id ∧ h.status = "held")) := by
  have hcanc : ∀ (st' : St) (j' : Job), findJob st' id = some j' →
      j'.status = "canceled" →
      processJob st' id fo be f
        = ⟨releaseHoldSt st' id j'.client_id, .skippedCanceled, false⟩ := by
    intro st' j' hf hc
    have hnd : ¬(j'.status = "done") := by rw [hc]; decide
    unfold processJob
    rw [hf]
    simp only [if_neg hnd, if_pos hc]
  refine ⟨?_, ?_, ?_⟩
  · intro hc
    rw [hcanc st j hfind hc]
    exact ⟨rfl, rfl, rfl, releaseHold_no_held st.holds id j.client_id⟩
  · intro hd
    unfold processJob
    rw [hfind]
    simp only [if_pos hd]
  · intro hq
    have hnf : ¬(j.status = "done" ∨ j.status = "error") := by
      rw [hq]; decide
    have hfc := findJob_adminCancel st id j hfind hnf
    have hnoheld : ∀ h ∈ (adminCancelJob st id).2.holds,
        ¬(h.job_id = id ∧ h.status = "held") := by
      unfold adminCancelJob
      rw [hfind]
      simp only []
      rw [if_neg hnf]
      simp only [holds_logJobEventApi2]
      exact releaseHoldAdmin_no_held _ id
    refine ⟨?_, ?_, ?_, hnoheld, ?_, ?_, ?_⟩
    · unfold adminCancelJob
      rw [hfind]
      simp only []
      rw [if_neg hnf]
    · rw [hfc]
      rfl
    · unfold adminCancelJob
      rw [hfind]
      simp only []
      rw [if_neg hnf]
      intro hmem
      simp at hmem
    · rw [hcanc (adminCancelJob st id).2 _ hfc rfl]
    · rw [hcanc (adminCancelJob st id).2 _ hfc rfl]
    · rw [hcanc (adminCancelJob st id).2 _ hfc rfl]
      intro h hmem
      exact releaseHold_no_held_mono hnoheld h hmem

/-- Witness for C7: cancel the concrete queued job, then deliver it. -/
theorem c7_witness :
    (adminCancelJob queuedState 1).1 = .canceled 1
    ∧ (processJob (adminCancelJob queuedState 1).2 1 false (.error "x")
        noFaults).openai_called = false
    ∧ (processJob (adminCancelJob queuedState 1).2 1 false (.error "x")
        noFaults).res = .skippedCanceled := by
  have h := (c7_cancel_before_pickup queuedState 1 queuedJob false
    (.error "x") noFaults rfl).2.2 rfl
  exact ⟨h.1, h.2.2.2.2.1, h.2.2.2.2.2.1⟩

/-- The worker's `running` patch under a job lookup. -/
theorem findJob_setJobP_running (st : St) (id : Nat) :
    findJob (setJobP st id (fun j =>
        { j with status := "running", progress := 10 })) id
      = (findJob st id).map (fun j =>
        { j with status := "running", progress := 10 }) :=
  findJob_setJobP_self _ _ _ (fun y => rfl)

/-- The worker's progress-30 patch under a job lookup. -/
theorem findJob_setJobP_prog30 (st : St) (id : Nat) :
    findJob (setJobP st id (fun j => { j with progress := 30 })) id
      = (findJob st id).map (fun j => { j with progress := 30 }) :=
  findJob_setJobP_self _ _ _ (fun y => rfl)

/-- The worker's `done` patch under a job lookup. -/
theorem findJob_setJobP_done (st : St) (id : Nat) (r : Json) :
    findJob (setJobP st id (fun j =>
        { j with status := "done", progress := 100,
                 result_json := some r })) id
      = (findJob st id).map (fun j =>
        { j with status := "done", progress := 100,
                 result_json := some r }) :=
  findJob_setJobP_self _ _ _ (fun y => rfl)

/-- The worker's `aej_final` patch under a job lookup. -/
theorem findJob_setJobP_final (st : St) (id : Nat) (n : Nat) :
    findJob (setJobP st id (fun j => { j with aej_final := some n })) id
      = (findJob st id).map (fun j => { j with aej_final := some n }) :=
  findJob_setJobP_self _ _ _ (fun y => rfl)

theorem runGeneration_snd (f : Faults) (st : St) (cid : String)
    (id : Nat) (mode : String) (fo : Bool) (be : Except String Json) :
    (runGeneration f st cid id mode fo be).2 = genPure mode fo be := by
  unfold runGeneration genPure
  by_cases hfo : fo = true
  · rw [if_pos hfo, if_pos hfo]
  · rw [if_neg hfo, if_neg hfo]
    by_cases hm : supportedMode mode = true
    · rw [if_pos hm, if_pos hm]
      cases be with
      | ok v => rfl
      | error m => rfl
    · rw [if_neg hm, if_neg hm]

theorem applyFallback_snd (f : Faults) (st : St) (cid : String)
    (id : Nat) (mode : String) (e : Option Json) (l : Option String) :
    (applyFallback f st cid id mode e l).2 = fbPure mode e := by
  unfold applyFallback fbPure
  cases e with
  | none => rfl
  | some v =>
    simp only []
    by_cases hv : jsTruthy v = true
    · rw [if_pos hv, if_pos hv]
    · rw [if_neg hv, if_neg hv]

/-- Every cause of a generation failure — the force-degraded flag, an
unsupported effective mode (`pickPromptAndSchema` throws), or a backend
error — leaves the generation stage without a result. -/
theorem genPure_fails (mode : String) (fo : Bool) (be : Except String Json)
    (h : fo = true ∨ supportedMode mode = false ∨ ∃ m, be = .error m) :
    (genPure mode fo be).1 = none := by
  unfold genPure
  rcases h with hfo | hm | ⟨m, rfl⟩
  · rw [if_pos hfo]
  · by_cases hfo : fo = true
    · rw [if_pos hfo]
    · rw [if_neg hfo, if_neg (show ¬supportedMode mode = true from by
        rw [hm]; decide)]
  · by_cases hfo : fo = true
    · rw [if_pos hfo]
    · rw [if_neg hfo]
      by_cases hsm : supportedMode mode = true
      · rw [if_pos hsm]
      · rw [if_neg hsm]

/-- When the generation stage produced no result, the run's `source` is
`"deterministic"` and its `llm_error` records a cause. -/
theorem genPure_none (mode : String) (fo : Bool) (be : Except String Json)
    (h : (genPure mode fo be).1 = none) :
    (genPure mode fo be).2.1 = "deterministic"
    ∧ ∃ m, (genPure mode fo be).2.2.1 = some m := by
  unfold genPure at h ⊢
  by_cases hfo : fo = true
  · rw [if_pos hfo]
    exact ⟨rfl, "force_degraded", rfl⟩
  · rw [if_neg hfo] at h ⊢
    by_cases hsm : supportedMode mode = true
    · rw [if_pos hsm] at h ⊢
      cases be with
      | ok v => simp at h
      | error m => exact ⟨rfl, m, rfl⟩
    · rw [if_neg hsm]
      exact ⟨rfl, "Unsupported mode: " ++ mode, rfl⟩

/-- C5 (amended): for every queued job whose generation fails for any
reason — the force-degraded flag, an unsupported effective mode, or a
backend error — the worker still drives the job to `done` with a
non-null result whose `source` is `"deterministic"` and whose
`llm_error` records the cause; but the substituted fallback document
does NOT satisfy the mode's strict output schema (shown for
`quick_boost`, whose strict schema the fallback violates). -/
theorem c5_fallback_degraded_result (st : St) (id : Nat) (j : Job)
    (rq : Json) (ef fo : Bool) (be : Except String Json)
    (hfind : findJob st id = some j) (hq : j.status = "queued")
    (hrq : j.request_json = some rq)
    (hfail : fo = true ∨ supportedMode (effMode rq j.mode) = false
      ∨ ∃ m, be = .error m) :
    (processJob st id fo be ⟨ef, false, false⟩).res = .completed id
    ∧ (findJob (processJob st id fo be ⟨ef, false, false⟩).st id).map
        Job.status = some "done"
    ∧ (∃ cause,
        (findJob (processJob st id fo be ⟨ef, false, false⟩).st id).bind
            Job.result_json
          = some (mkResultPayload
              (buildDeterministicFallback (effMode rq j.mode))
              "deterministic" (some cause)))
    ∧ checkQuickBoost (buildDeterministicFallback "quick_boost") = false := by
  have hnone : (genPure (effMode rq j.mode) fo be).1 = none :=
    genPure_fails _ _ _ hfail
  obtain ⟨hsrc, m, hllm⟩ := genPure_none _ _ _ hnone
  have hdn : ¬(j.status = "done") := by rw [hq]; decide
  have hdc : ¬(j.status = "canceled") := by rw [hq]; decide
  have hff : (false = true) = False := by decide
  unfold processJob
  rw [hfind]
  simp only [hrq, if_neg hdn, if_neg hdc, hff, if_false]
  cases hml : jsLookup rq "mode" with
  | none =>
    have heq : effMode rq j.mode = normalizeMode j.mode := by
      unfold effMode
      rw [hml]
    rw [heq] at hnone hsrc hllm
    rw [heq]
    refine ⟨by trivial, ?_, ⟨m, ?_⟩, by trivial⟩
    · simp only [findJob_releaseHoldSt, findJob_logJobEventW, findJob_logAEJ,
        findJob_logDecisionIns, findJob_runGeneration, findJob_applyFallback,
        findJob_setJobP_running, findJob_setJobP_prog30, findJob_setJobP_done,
        findJob_setJobP_final, hfind]
      rfl
    · simp only [findJob_releaseHoldSt, findJob_logJobEventW, findJob_logAEJ,
        findJob_logDecisionIns, findJob_runGeneration, findJob_applyFallback,
        findJob_setJobP_running, findJob_setJobP_prog30, findJob_setJobP_done,
        findJob_setJobP_final, hfind, runGeneration_snd, applyFallback_snd,
        hnone, hsrc, hllm, fbPure]
      rfl
  | some v =>
    by_cases hv : jsTruthy v = true
    · have heq : effMode rq j.mode = normalizeMode (jsToString v) := by
        unfold effMode
        rw [hml]
        simp only []
        rw [if_pos hv]
      rw [heq] at hnone hsrc hllm
      rw [heq]
      simp only [if_pos hv]
      refine ⟨by trivial, ?_, ⟨m, ?_⟩, by trivial⟩
      · simp only [findJob_releaseHoldSt, findJob_logJobEventW, findJob_logAEJ,
          findJob_logDecisionIns, findJob_runGeneration, findJob_applyFallback,
          findJob_setJobP_running, findJob_setJobP_prog30, findJob_setJobP_done,
          findJob_setJobP_final, hfind]
        rfl
      · simp only [findJob_releaseHoldSt, findJob_logJobEventW, findJob_logAEJ,
          findJob_logDecisionIns, findJob_runGeneration, findJob_applyFallback,
          findJob_setJobP_running, findJob_setJobP_prog30, findJob_setJobP_done,
          findJob_setJobP_final, hfind, runGeneration_snd, applyFallback_snd,
          hnone, hsrc, hllm, fbPure]
        rfl
    · have heq : effMode rq j.mode = normalizeMode j.mode := by
        unfold effMode
        rw [hml]
        simp only []
        rw [if_neg hv]
      rw [heq] at hnone hsrc hllm
      rw [heq]
      simp only [if_neg hv]
      refine ⟨by trivial, ?_, ⟨m, ?_⟩, by trivial⟩
      · simp only [findJob_releaseHoldSt, findJob_logJobEventW, findJob_logAEJ,
          findJob_logDecisionIns, findJob_runGeneration, findJob_applyFallback,
          findJob_setJobP_running, findJob_setJobP_prog30, findJob_setJobP_done,
          findJob_setJobP_final, hfind]
        rfl
      · simp only [findJob_releaseHoldSt, findJob_logJobEventW, findJob_logAEJ,
          findJob_logDecisionIns, findJob_runGeneration, findJob_applyFallback,
          findJob_setJobP_running, findJob_setJobP_prog30, findJob_setJobP_done,
          findJob_setJobP_final, hfind, runGeneration_snd, applyFallback_snd,
          hnone, hsrc, hllm, fbPure]
        rfl

/-- Witness for C5: a forced-degraded delivery of the concrete queued
`quick_boost` job. -/
theorem c5_witness :
    (processJob queuedState 1 true (.ok (.obj [])) ⟨false, false, false⟩).res
      = .completed 1
    ∧ (findJob (processJob queuedState 1 true (.ok (.obj []))
        ⟨false, false, false⟩).st 1).map Job.status = some "done"
    ∧ (∃ cause,
        (findJob (processJob queuedState 1 true (.ok (.obj []))
            ⟨false, false, false⟩).st 1).bind Job.result_json
          = some (mkResultPayload
              (buildDeterministicFallback
                (effMode (mkCreateBody "quick_boost" [demoItem])
                  queuedJob.mode))
              "deterministic" (some cause)))
    ∧ checkQuickBoost (buildDeterministicFallback "quick_boost") = false :=
  c5_fallback_degraded_result queuedState 1 queuedJob
    (mkCreateBody "quick_boost" [demoItem]) false true (.ok (.obj []))
    rfl rfl rfl (Or.inl rfl)

/-- Counterexample for C5 as claimed: a forced-degraded run completes
with the fallback payload, and that payload's content violates the
`quick_boost` strict output schema. -/
theorem c5_counterexample :
    (processJob queuedState 1 true (.ok (.obj [])) noFaults).res
      = .completed 1
    ∧ ((findJob (processJob queuedState 1 true (.ok (.obj []))
          noFaults).st 1).bind Job.result_json)
      = some (mkResultPayload (buildDeterministicFallback "quick_boost")
          "deterministic" (some "force_degraded"))
    ∧ checkQuickBoost (buildDeterministicFallback "quick_boost") = false :=
  ⟨rfl, rfl, rfl⟩

/- ------------------- event-fault insensitivity ------------------- -/

theorem stripEvents_setJobP (st : St) (id : Nat) (p : Job → Job) :
    stripEvents (setJobP st id p) = setJobP (stripEvents st) id p := rfl

theorem stripEvents_logAEJ (st : St) (cid : String) (id : Nat)
    (stage : String) (n : Nat) :
    stripEvents (logAEJ st cid id stage n)
      = logAEJ (stripEvents st) cid id stage n := rfl

theorem stripEvents_releaseHoldSt (st : St) (id : Nat) (cid : String) :
    stripEvents (releaseHoldSt st id cid)
      = releaseHoldSt (stripEvents st) id cid := rfl

theorem stripEvents_logJobEventW (f : Faults) (st : St) (e : EventRecord) :
    stripEvents (logJobEventW f st e) = stripEvents st := by
  unfold logJobEventW
  split
  · rfl
  · rfl

theorem stripEvents_logDecisionIns (st : St) (c : String) (i : Nat)
    (rq : Json) (t r : String) :
    stripEvents (logDecisionIns st c i rq t r)
      = logDecisionIns (stripEvents st) c i rq t r := by
  unfold logDecisionIns
  by_cases hc : st.decisions.any (fun d =>
      d.client_id = c ∧ d.job_id = i ∧ d.decision_type = t) = true
  · rw [if_pos hc, if_pos (show (stripEvents st).decisions.any (fun d =>
      d.client_id = c ∧ d.job_id = i ∧ d.decision_type = t) = true from hc)]
  · rw [if_neg hc, if_neg (show ¬(stripEvents st).decisions.any (fun d =>
      d.client_id = c ∧ d.job_id = i ∧ d.decision_type = t) = true from hc)]
    rfl

theorem stripEvents_runGeneration (f : Faults) (st : St) (cid : String)
    (id : Nat) (mode : String) (fo : Bool) (be : Except String Json) :
    stripEvents (runGeneration f st cid id mode fo be).1 = stripEvents st := by
  unfold runGeneration
  by_cases hfo : fo = true
  · rw [if_pos hfo]
  · rw [if_neg hfo]
    by_cases hm : supportedMode mode = true
    · rw [if_pos hm]
      cases be with
      | ok v => simp only [stripEvents_logJobEventW]
      | error m => simp only [stripEvents_logJobEventW]
    · rw [if_neg hm]

theorem stripEvents_applyFallback (f : Faults) (st : St) (cid : String)
    (id : Nat) (mode : String) (e : Option Json) (l : Option String) :
    stripEvents (applyFallback f st cid id mode e l).1 = stripEvents st := by
  unfold applyFallback
  cases e with
  | none => simp only [stripEvents_logJobEventW]
  | some v =>
    simp only []
    by_cases hv : jsTruthy v = true
    · rw [if_pos hv]
    · rw [if_neg hv]
      simp only [stripEvents_logJobEventW]

theorem stripEvents_failedHandler (f : Faults) (st : St) (id : Nat)
    (m : String) :
    stripEvents (failedHandler f st id m)
      = match findJob (stripEvents st) id with
        | none => stripEvents st
        | some dbJob =>
          releaseHoldSt (setJobP (stripEvents st) id (fun j =>
            { j with status := "error", progress := 100,
                     error_text := some m })) id dbJob.client_id := by
  have hrw : findJob (stripEvents st) id = findJob st id := rfl
  rw [hrw]
  unfold failedHandler
  cases hf : findJob st id with
  | none => rfl
  | some dbJob =>
    simp only [stripEvents_releaseHoldSt, stripEvents_logJobEventW,
      stripEvents_setJobP]

theorem computeAEJTotal_def (st : St) (c : String) (i : Nat) :
    computeAEJTotal st c i
      = (st.aej_logs.map (fun e =>
          if e.client_id = c ∧ e.job_id = i then e.aej_used else 0)).sum := rfl

set_option maxHeartbeats 1600000 in
/-- C6 (amended): a failed event-log insert is swallowed by the worker
and never changes a run's outcome — the run result, whether the backend
was called, and the whole store apart from the event log are identical
to a run whose event inserts succeed.  A failed decision-log insert,
however, is NOT swallowed (`logDecision` has no try/catch): it aborts
the run, the job ends in status `error` instead of `done`. -/
theorem c6_event_faults_harmless (st : St) (id : Nat) (fo : Bool)
    (be : Except String Json) (d1 d2 : Bool) :
    ((processJob st id fo be ⟨true, d1, d2⟩).res
        = (processJob st id fo be ⟨false, d1, d2⟩).res
      ∧ (processJob st id fo be ⟨true, d1, d2⟩).openai_called
        = (processJob st id fo be ⟨false, d1, d2⟩).openai_called
      ∧ stripEvents (processJob st id fo be ⟨true, d1, d2⟩).st
        = stripEvents (processJob st id fo be ⟨false, d1, d2⟩).st)
    ∧ ((processJob queuedState 1 false (.error "db") ⟨false, true, false⟩).res
        = .failed "decision_insert_failed"
      ∧ (findJob (processJob queuedState 1 false (.error "db")
          ⟨false, true, false⟩).st 1).map Job.status = some "error") := by
  have htt : (true = true) = True := by decide
  have hffp : (false = true) = False := by decide
  refine ⟨?_, rfl, rfl⟩
  unfold processJob
  cases hfind : findJob st id with
  | none => exact ⟨rfl, rfl, rfl⟩
  | some j =>
    by_cases hdn : j.status = "done"
    · simp only [if_pos hdn]
      refine ⟨by trivial, by trivial, by trivial⟩
    · by_cases hdc : j.status = "canceled"
      · simp only [if_neg hdn, if_pos hdc]
        refine ⟨by trivial, by trivial, by trivial⟩
      · simp only [if_neg hdn, if_neg hdc]
        cases hrq : j.request_json with
        | none =>
          refine ⟨by trivial, by trivial, ?_⟩
          simp only [stripEvents_failedHandler, stripEvents_logJobEventW,
            stripEvents_setJobP]
        | some rq =>
          cases d1 with
          | true =>
            simp only [htt, if_true]
            refine ⟨by trivial, by trivial, ?_⟩
            simp only [stripEvents_failedHandler, stripEvents_logJobEventW,
              stripEvents_setJobP, stripEvents_logAEJ, findJob_logAEJ,
              findJob_logJobEventW]
          | false =>
            simp only [hffp, if_false]
            cases d2 with
            | true =>
              simp only [htt, if_true]
              refine ⟨by trivial, ?_, ?_⟩
              · simp only [runGeneration_snd]
              · simp only [stripEvents_failedHandler, stripEvents_logJobEventW,
                  stripEvents_setJobP, stripEvents_logAEJ,
                  stripEvents_logDecisionIns, stripEvents_releaseHoldSt,
                  stripEvents_runGeneration, stripEvents_applyFallback,
                  runGeneration_snd, applyFallback_snd, findJob_logJobEventW,
                  findJob_logAEJ, findJob_logDecisionIns, findJob_runGeneration,
                  findJob_applyFallback, findJob_releaseHoldSt]
            | false =>
              simp only [hffp, if_false]
              refine ⟨by trivial, ?_, ?_⟩
              · simp only [runGeneration_snd]
              · simp only [stripEvents_failedHandler, stripEvents_logJobEventW,
                  stripEvents_setJobP, stripEvents_logAEJ,
                  stripEvents_logDecisionIns, stripEvents_releaseHoldSt,
                  stripEvents_runGeneration, stripEvents_applyFallback,
                  runGeneration_snd, applyFallback_snd, computeAEJTotal_def,
                  aej_logs_setJobP, aej_logs_logJobEventW, aej_logs_logAEJ,
                  aej_logs_logDecisionIns, aej_logs_runGeneration,
                  aej_logs_applyFallback, aej_logs_releaseHoldSt,
                  findJob_logJobEventW, findJob_logAEJ, findJob_logDecisionIns,
                  findJob_runGeneration, findJob_applyFallback,
                  findJob_releaseHoldSt]

/-- Counterexample for C6 as claimed: injecting a failure into the
`analysed` decision-log insert flips the very same delivery from
`done` to a failed run with job status `error`. -/
theorem c6_counterexample :
    (processJob queuedState 1 false (.error "db") ⟨false, true, false⟩).res
      = .failed "decision_insert_failed"
    ∧ (findJob (processJob queuedState 1 false (.error "db")
        ⟨false, true, false⟩).st 1).map Job.status = some "error"
    ∧ (processJob queuedState 1 false (.error "db") noFaults).res
      = .completed 1
    ∧ (findJob (processJob queuedState 1 false (.error "db")
        noFaults).st 1).map Job.status = some "done" :=
  ⟨rfl, rfl, rfl, rfl⟩
